import Mathlib

/-!
Shallow embedding of merge_pull.py, a script that merges a pull request by
squashing or rebasing the current feature branch and pushing the result.

The external git binary is modelled by an oracle: a function from the index
of the invocation (how many git commands ran before it) and the argument
list to the exit code and the raw output lines of the subprocess.  Standard
input is a list of lines; reaching its end corresponds to end-of-input.
Every observable action of the script is recorded in a trace of events:
git invocations, interactive prompts, and printed lines.  A run ends in one
of three ways: the script falls off the end (Python exits with code 0), it
calls sys.exit with a code, or an exception escapes (IndexError from
indexing an empty list, StopIteration from next on an exhausted generator,
EOFError from an unguarded input call); CPython terminates with exit code 1
on an unhandled exception, which exitCodeOf accounts for.
-/

namespace MergePull

/-- Trailing-whitespace characters stripped by the Python bytes rstrip with
no argument: space, tab, newline, carriage return, vertical tab, form feed. -/
def isPySpace (c : Char) : Bool :=
  c = ' ' || c = '\t' || c = '\n' || c = '\r' || c = '\x0b' || c = '\x0c'

/-- Model of line.rstrip() from merge_pull.py line 61: drop trailing
whitespace characters. Decoding from utf-8 is the identity on our strings. -/
def rstrip (s : String) : String :=
  String.mk ((s.data.reverse.dropWhile isPySpace).reverse)

/-- Model of the Python str.startswith test from line 95, by character
lists. -/
def pyStartsWith (s p : String) : Bool := p.data.isPrefixOf s.data

/-- Model of the Python str.lower call from lines 120 and 148, by mapping
the character-level lowering over the string. -/
def pyLower (s : String) : String := String.mk (s.data.map Char.toLower)

/-- Exit code and raw output lines (as delivered by readline, still carrying
their line terminators) of one external git command. -/
structure GitResult where
  code : Nat
  rawLines : List String
deriving DecidableEq

/-- The external world: the k-th git invocation with a given argument list
produces a GitResult.  Standard error is merged into standard output by the
Popen call (line 53), so rawLines is the combined stream. -/
structure Env where
  oracle : Nat → List String → GitResult

/-- Observable events of a run: a git subprocess invocation, an interactive
prompt written before reading a line from standard input, a printed line. -/
inductive Event where
  | git (args : List String)
  | prompt (text : String)
  | print (text : String)
deriving DecidableEq

/-- Mutable state of a run: number of git commands issued so far, remaining
standard-input lines, and the trace of events so far. -/
structure St where
  k : Nat
  stdin : List String
  trace : List Event
deriving DecidableEq

/-- Initial state of a run with the given standard input. -/
def St.init (stdin : List String) : St := ⟨0, stdin, []⟩

/-- Result of running a fragment of the script: normal value, termination
via sys.exit with a code, or an unhandled Python exception. -/
inductive RunRes (α : Type) where
  | ok (a : α) (s : St)
  | exit (code : Nat) (s : St)
  | crash (s : St)
deriving DecidableEq

/-- A script fragment: a state transformer that can terminate the process. -/
def M (α : Type) : Type := St → RunRes α

/-- Return of the run monad. -/
def mret {α : Type} (a : α) : M α := fun s => .ok a s

/-- Sequencing of the run monad: sys.exit and unhandled exceptions abort
everything that follows. -/
def mbind {α β : Type} (x : M α) (f : α → M β) : M β := fun s =>
  match x s with
  | .ok a s' => f a s'
  | .exit c s' => .exit c s'
  | .crash s' => .crash s'

/-- Final trace of a run result. -/
def traceOf {α : Type} : RunRes α → List Event
  | .ok _ s => s.trace
  | .exit _ s => s.trace
  | .crash s => s.trace

/-- Process exit code of a finished run: 0 when the script ends normally,
the argument of sys.exit otherwise, and 1 for an unhandled exception
(the CPython convention). -/
def exitCodeOf {α : Type} : RunRes α → Nat
  | .ok _ _ => 0
  | .exit c _ => c
  | .crash _ => 1

/-- The lines the command runner captures from a GitResult: the readline
loop (lines 56-63) stops at the first empty read and rstrips each line. -/
def gitLines (r : GitResult) : List String :=
  (r.rawLines.takeWhile (fun l => l != "")).map rstrip

/-- Events emitted while a git command runs (lines 50-65): a blank line,
the echoed command line, the subprocess invocation itself, a blank line,
one prefixed line per captured output line, and a final blank line. -/
def gitEvents (args : List String) (out : List String) : List Event :=
  [Event.print "", Event.print (String.intercalate " " ("git" :: args)),
   Event.git args, Event.print ""]
  ++ out.map (fun l => Event.print ("git> " ++ l))
  ++ [Event.print ""]

/-- State after a successful git command: counter bumped, events appended. -/
def stGit (s : St) (args out : List String) : St :=
  { s with k := s.k + 1, trace := s.trace ++ gitEvents args out }

/-- Diagnostic printed when a git command exits non-zero (lines 68-69). -/
def failEvents (c : Nat) : List Event :=
  [Event.print "",
   Event.print ("Git command terminated with exit code " ++ toString c ++ ".")]

/-- State after a failed git command: like stGit plus the diagnostic. -/
def stGitFail (s : St) (args out : List String) (c : Nat) : St :=
  { s with k := s.k + 1, trace := s.trace ++ gitEvents args out ++ failEvents c }

/-- The command runner git(*arguments) of lines 46-72: invokes the oracle,
streams and captures the rstripped lines, and on a non-zero exit code
prints a diagnostic and terminates the program with exit code 1. -/
def gitCall (env : Env) (args : List String) : M (List String) := fun s =>
  if (env.oracle s.k args).code ≠ 0 then
    .exit 1 (stGitFail s args (gitLines (env.oracle s.k args)) (env.oracle s.k args).code)
  else
    .ok (gitLines (env.oracle s.k args)) (stGit s args (gitLines (env.oracle s.k args)))

/-- State after a print statement. -/
def stPrint (s : St) (t : String) : St :=
  { s with trace := s.trace ++ [Event.print t] }

/-- A print statement of the script. -/
def mprint (t : String) : M Unit := fun s => .ok () (stPrint s t)

/-- Indexing with [0] as on lines 76-78 and 96: IndexError, hence an
unhandled exception, when the list is empty. -/
def idx0 (ls : List String) : M String := fun s =>
  match ls with
  | [] => .crash s
  | a :: _ => .ok a s

/-- The input(prompt) builtin at a place where EOFError is not caught
(lines 120 and 148): prints the prompt, then reads one line; at end of
input the exception escapes and the run crashes. -/
def readLine (p : String) : M String := fun s =>
  match s.stdin with
  | [] => .crash { s with trace := s.trace ++ [Event.prompt p] }
  | a :: rest => .ok a { s with stdin := rest, trace := s.trace ++ [Event.prompt p] }

/-- The message-entry loop of lines 125-131: input with an empty prompt is
called repeatedly until EOFError, which is caught; all remaining input
lines are collected.  One prompt event per successful read plus the final
read that raises EOFError. -/
def readAll : M (List String) := fun s =>
  .ok s.stdin ⟨s.k, [], s.trace ++ (s.stdin.map (fun _ => Event.prompt "")) ++ [Event.prompt ""]⟩

/-- The confirmation idiom assume_yes or input(p).lower() == y used on
lines 120 and 148: under assume-yes the answer is affirmative and no input
is read; otherwise one line is read and compared, lowercased, against y. -/
def confirm (p : String) (ay : Bool) : M Bool :=
  if ay then mret true
  else mbind (readLine p) (fun a => mret (pyLower a == "y"))

/-- Lines 112-132: resolve the final commit message.  A missing or empty
message (Python falsiness of None and of the empty string) triggers the
interactive path: show the captured first-commit message, confirm its
reuse, and on decline read a free-form message until end of input. -/
def resolveMessage (msg0 : Option String) (ay : Bool) (m0 : String) : M String :=
  if msg0.getD "" = "" then
    mbind (mprint "Message of the first commit on this branch:") fun _ =>
    mbind (mprint "----") fun _ =>
    mbind (mprint "") fun _ =>
    mbind (mprint m0) fun _ =>
    mbind (mprint "") fun _ =>
    mbind (mprint "----") fun _ =>
    mbind (confirm "Re-use the this message (y/N): " ay) fun c =>
    if c then
      mbind (mprint "Re-using commit messsage...") fun _ => mret m0
    else
      mbind (mprint "Enter/paste your message. Hit Ctrl-D to save it.") fun _ =>
      mbind readAll fun ls => mret (String.intercalate "\n" ls)
  else mret (msg0.getD "")

/-- Line 95: scan the reverse-ordered left-right revision list for the
first entry on the local side and strip the marker; next on an exhausted
generator raises StopIteration, an unhandled exception. -/
def firstLeft (commits : List String) : M String := fun s =>
  match commits.find? (fun c => pyStartsWith c "<") with
  | none => .crash s
  | some c => .ok (c.drop 1) s

/-- Lines 148-153: optionally delete the feature branch locally and on the
remote, guarded by the delete confirmation. -/
def deletePhase (env : Env) (rm fb : String) (ay : Bool) : M Unit :=
  mbind (confirm "Delete feature branches (y/N): " ay) fun d =>
  if d then
    mbind (mprint "Deleting feature branch...") fun _ =>
    mbind (gitCall env ["branch", "-d", fb]) fun _ =>
    mbind (mprint "Deleting feature branch on server...") fun _ =>
    mbind (gitCall env ["push", rm, fb, "--delete"]) fun _ => mret ()
  else mret ()

/-- Lines 136-155: force-push HEAD to the feature branch, push HEAD to the
target branch, check out the target branch, pull with rebase, then the
optional cleanup and the farewell print. -/
def pushPhase (env : Env) (tb rm fb : String) (ay : Bool) : M Unit :=
  mbind (mprint "Force-pushing commit to feature branch...") fun _ =>
  mbind (gitCall env ["push", "--force", rm, "HEAD:" ++ fb]) fun _ =>
  mbind (mprint "Pushing commit to target branch...") fun _ =>
  mbind (gitCall env ["push", rm, "HEAD:" ++ tb]) fun _ =>
  mbind (mprint "Switching to target branch...") fun _ =>
  mbind (gitCall env ["checkout", tb]) fun _ =>
  mbind (mprint "Pulling in upstream changes...") fun _ =>
  mbind (gitCall env ["pull", rm, tb, "--rebase"]) fun _ =>
  mbind (deletePhase env rm fb ay) fun _ =>
  mprint "Good bye."

/-- Lines 103-134 (the else branch): capture the message of the first
commit unique to the branch, merge in the upstream changes, soft-reset to
squash, resolve the final message, and create the squashed commit. -/
def squashPhase (env : Env) (tb rm fc : String) (msg0 : Option String) (ay : Bool) : M Unit :=
  mbind (gitCall env ["show", "--no-patch", "--format=%B", fc]) fun msgL =>
  mbind (mprint "Merging in upstream changes...") fun _ =>
  mbind (gitCall env ["merge", rm ++ "/" ++ tb]) fun _ =>
  mbind (mprint "Squashing commits...") fun _ =>
  mbind (gitCall env ["reset", "--soft", rm ++ "/" ++ tb]) fun _ =>
  mbind (resolveMessage msg0 ay (String.intercalate "\n" msgL)) fun m =>
  mbind (gitCall env ["commit", "-m", m]) fun _ => mret ()

/-- Lines 75-155: the whole orchestration after argument parsing, starting
from the branch-identity resolution, through the same-ref guard, fetch,
divergence query, the rebase-or-squash branch, and the push phase. -/
def mergePull (env : Env) (tb rm : String) (msg0 : Option String) (ay : Bool) : M Unit :=
  mbind (gitCall env ["rev-parse", "--abbrev-ref", "--verify", "HEAD"]) fun fbL =>
  mbind (idx0 fbL) fun fb =>
  mbind (gitCall env ["rev-parse", tb]) fun tbL =>
  mbind (idx0 tbL) fun tr =>
  mbind (gitCall env ["rev-parse", fb]) fun fbrL =>
  mbind (idx0 fbrL) fun fr =>
  mbind (mprint ("Merging pull request for branch " ++ fb ++ " with target branch " ++ tb ++ "...")) fun _ =>
  if tr = fr then
    fun s => .exit 1 (stPrint s "Target branch and HEAD point to the same ref. Make sure you are on your feature branch.")
  else
    mbind (mprint "Fetching upstream changes...") fun _ =>
    mbind (gitCall env ["fetch", rm]) fun _ =>
    mbind (gitCall env ["rev-list", "--left-right", "--reverse", "HEAD..." ++ rm ++ "/" ++ tb]) fun commits =>
    mbind (firstLeft commits) fun fc =>
    mbind (gitCall env ["rev-parse", "HEAD"]) fun hL =>
    mbind (idx0 hL) fun h =>
    mbind (if fc = h then
             mbind (mprint "Rebasing commit(s)...") fun _ =>
             mbind (gitCall env ["rebase", rm ++ "/" ++ tb]) fun _ => mret ()
           else squashPhase env tb rm fc msg0 ay) fun _ =>
    pushPhase env tb rm fb ay

/-- A complete run of the orchestration from a fresh state. -/
def runTool (env : Env) (stdin : List String) (tb rm : String)
    (msg0 : Option String) (ay : Bool) : RunRes Unit :=
  mergePull env tb rm msg0 ay (St.init stdin)

/-- Outcome of command-line parsing. -/
inductive ParseOut where
  | parsed (tb rm : String) (msg : Option String) (ay : Bool)
  | help
  | usageError
deriving DecidableEq

/-- Modelled from the argparse semantics of the parser built on lines
27-38: the four declared options with their defaults, the automatic -h
option that prints help and exits with code 0, and the argparse convention
of terminating with exit code 2 on a usage error (an unrecognized argument
or an option missing its value).  Option abbreviation and the equals-sign
spelling of long options are not modelled. -/
def parseArgsFrom : List String → String → String → Option String → Bool → ParseOut
  | [], tb, rm, msg, ay => .parsed tb rm msg ay
  | a :: rest, tb, rm, msg, ay =>
    if a = "-h" ∨ a = "--help" then .help
    else if a = "-t" ∨ a = "--target-branch" then
      match rest with
      | v :: rest2 => parseArgsFrom rest2 v rm msg ay
      | [] => .usageError
    else if a = "-r" ∨ a = "--remote" then
      match rest with
      | v :: rest2 => parseArgsFrom rest2 tb v msg ay
      | [] => .usageError
    else if a = "-m" ∨ a = "--message" then
      match rest with
      | v :: rest2 => parseArgsFrom rest2 tb rm (some v) ay
      | [] => .usageError
    else if a = "-y" ∨ a = "--assume-yes" then parseArgsFrom rest tb rm msg true
    else .usageError

/-- Argument parsing with the defaults of lines 31-36. -/
def parseArgs (argv : List String) : ParseOut :=
  parseArgsFrom argv "master" "origin" none false

/-- Process exit code of a whole invocation of the script: argument parsing
first (help exits 0, a usage error exits 2), then the orchestration. -/
def mainExit (argv : List String) (env : Env) (stdin : List String) : Nat :=
  match parseArgs argv with
  | .help => 0
  | .usageError => 2
  | .parsed tb rm msg ay => exitCodeOf (runTool env stdin tb rm msg ay)

/-- Is the event a git subprocess invocation. -/
def isGitEv : Event → Bool
  | .git _ => true
  | _ => false

/-- Is the event a git invocation of the given subcommand. -/
def cmdIs (c : String) : Event → Bool
  | .git (a :: _) => a == c
  | _ => false

/-- Is the event one of the commit-message prompts: the reuse confirmation
of line 120 or an empty-prompt read of the message-entry loop. -/
def isMsgPromptEv : Event → Bool
  | .prompt p => p == "Re-use the this message (y/N): " || p == ""
  | _ => false

/-- A fragment only appends events of kind P to the trace, whatever the
oracle answers and however it ends. -/
def Shape (P : Event → Prop) {α : Type} (x : M α) : Prop :=
  ∀ s, ∃ t, traceOf (x s) = s.trace ++ t ∧ ∀ e ∈ t, P e

/-- Events that can occur after the rebase-or-commit decision: no merge, no
soft reset, no commit creation, no commit-message prompt. -/
def benignB (e : Event) : Bool :=
  !(cmdIs "merge" e || cmdIs "reset" e || cmdIs "commit" e || isMsgPromptEv e)

/-- Every sys.exit reachable in a fragment carries exit code 1. -/
def OnlyExit1 {α : Type} (x : M α) : Prop :=
  ∀ s c s', x s = RunRes.exit c s' → c = 1

/-- Oracle for the same-ref scenario: the current branch is feat and both
refs resolve to the identifier aaa; every command succeeds. -/
def envSameRef : Env := ⟨fun k _ =>
  match k with
  | 0 => ⟨0, ["feat\n"]⟩
  | 1 => ⟨0, ["aaa\n"]⟩
  | 2 => ⟨0, ["aaa\n"]⟩
  | _ => ⟨0, []⟩⟩

/-- Oracle where every external command fails with exit code 3. -/
def envFail : Env := ⟨fun _ _ => ⟨3, ["boom\n"]⟩⟩

/-- Oracle for the one-commit-ahead scenario: refs differ, the only
divergence entry is the local commit ccc, and HEAD is ccc. -/
def envOneCommit : Env := ⟨fun k _ =>
  match k with
  | 0 => ⟨0, ["feat\n"]⟩
  | 1 => ⟨0, ["aaa\n"]⟩
  | 2 => ⟨0, ["bbb\n"]⟩
  | 3 => ⟨0, []⟩
  | 4 => ⟨0, ["<ccc\n"]⟩
  | 5 => ⟨0, ["ccc\n"]⟩
  | _ => ⟨0, []⟩⟩

/-- Oracle for the no-left-entry scenario: the divergence list only carries
right-side entries. -/
def envNoLeft : Env := ⟨fun k _ =>
  match k with
  | 0 => ⟨0, ["feat\n"]⟩
  | 1 => ⟨0, ["aaa\n"]⟩
  | 2 => ⟨0, ["bbb\n"]⟩
  | 3 => ⟨0, []⟩
  | 4 => ⟨0, [">ddd\n"]⟩
  | _ => ⟨0, []⟩⟩

/-- Oracle whose rev-parse for HEAD at position 0 succeeds with no output. -/
def envEmpty0 : Env := ⟨fun _ _ => ⟨0, []⟩⟩

/-- Oracle whose second rev-parse succeeds with no output. -/
def envEmpty1 : Env := ⟨fun k _ =>
  match k with
  | 0 => ⟨0, ["feat\n"]⟩
  | _ => ⟨0, []⟩⟩

/-- Oracle whose third rev-parse succeeds with no output. -/
def envEmpty2 : Env := ⟨fun k _ =>
  match k with
  | 0 => ⟨0, ["feat\n"]⟩
  | 1 => ⟨0, ["aaa\n"]⟩
  | _ => ⟨0, []⟩⟩

/-- Oracle whose rev-parse of HEAD (the sixth command) succeeds with no
output. -/
def envEmpty5 : Env := ⟨fun k _ =>
  match k with
  | 0 => ⟨0, ["feat\n"]⟩
  | 1 => ⟨0, ["aaa\n"]⟩
  | 2 => ⟨0, ["bbb\n"]⟩
  | 3 => ⟨0, []⟩
  | 4 => ⟨0, ["<ccc\n"]⟩
  | _ => ⟨0, []⟩⟩

/-- State after input(p) successfully reads a line, leaving rest. -/
def stRead (s : St) (p : String) (rest : List String) : St :=
  ⟨s.k, rest, s.trace ++ [Event.prompt p]⟩

/-- State after the message-entry loop has consumed all remaining input. -/
def stReadAll (s : St) : St :=
  ⟨s.k, [], s.trace ++ (s.stdin.map (fun _ => Event.prompt "")) ++ [Event.prompt ""]⟩

/-- Oracle for the multiple-commits-ahead scenario: refs aaa and bbb, two
local commits c1 and c2 in the divergence list, HEAD bbb differing from the
first unique commit c1, whose message is first msg. -/
def envSquash : Env := ⟨fun k _ =>
  match k with
  | 0 => ⟨0, ["feat\n"]⟩
  | 1 => ⟨0, ["aaa\n"]⟩
  | 2 => ⟨0, ["bbb\n"]⟩
  | 3 => ⟨0, []⟩
  | 4 => ⟨0, ["<c1\n", "<c2\n"]⟩
  | 5 => ⟨0, ["bbb\n"]⟩
  | 6 => ⟨0, ["first msg\n"]⟩
  | _ => ⟨0, []⟩⟩

@[simp] theorem stGit_k (s : St) (args out : List String) : (stGit s args out).k = s.k + 1 := rfl

@[simp] theorem stGit_stdin (s : St) (args out : List String) : (stGit s args out).stdin = s.stdin := rfl

@[simp] theorem stGit_trace (s : St) (args out : List String) :
    (stGit s args out).trace = s.trace ++ gitEvents args out := rfl

@[simp] theorem stGitFail_k (s : St) (args out : List String) (c : Nat) :
    (stGitFail s args out c).k = s.k + 1 := rfl

@[simp] theorem stGitFail_stdin (s : St) (args out : List String) (c : Nat) :
    (stGitFail s args out c).stdin = s.stdin := rfl

@[simp] theorem stGitFail_trace (s : St) (args out : List String) (c : Nat) :
    (stGitFail s args out c).trace = s.trace ++ gitEvents args out ++ failEvents c := rfl

@[simp] theorem stPrint_k (s : St) (t : String) : (stPrint s t).k = s.k := rfl

@[simp] theorem stPrint_stdin (s : St) (t : String) : (stPrint s t).stdin = s.stdin := rfl

@[simp] theorem stPrint_trace (s : St) (t : String) :
    (stPrint s t).trace = s.trace ++ [Event.print t] := rfl

@[simp] theorem St_init_k (stdin : List String) : (St.init stdin).k = 0 := rfl

@[simp] theorem St_init_stdin (stdin : List String) : (St.init stdin).stdin = stdin := rfl

@[simp] theorem St_init_trace (stdin : List String) : (St.init stdin).trace = [] := rfl

@[simp] theorem traceOf_ok {α : Type} (a : α) (s : St) : traceOf (.ok a s) = s.trace := rfl

@[simp] theorem traceOf_exit {α : Type} (c : Nat) (s : St) : traceOf (RunRes.exit c s : RunRes α) = s.trace := rfl

@[simp] theorem traceOf_crash {α : Type} (s : St) : traceOf (RunRes.crash s : RunRes α) = s.trace := rfl

@[simp] theorem exitCodeOf_ok {α : Type} (a : α) (s : St) : exitCodeOf (.ok a s) = 0 := rfl

@[simp] theorem exitCodeOf_exit {α : Type} (c : Nat) (s : St) :
    exitCodeOf (RunRes.exit c s : RunRes α) = c := rfl

@[simp] theorem exitCodeOf_crash {α : Type} (s : St) : exitCodeOf (RunRes.crash s : RunRes α) = 1 := rfl

/-- A list whose elements all fail the test filters to the empty list. -/
theorem filter_nil_of_all {α : Type} (p : α → Bool) :
    ∀ (l : List α), (∀ e ∈ l, p e = false) → l.filter p = []
  | [], _ => rfl
  | a :: l, h => by
      have ha := h a (List.mem_cons_self a l)
      have hl := filter_nil_of_all p l (fun e he => h e (List.mem_cons_of_mem a he))
      simp [List.filter_cons, ha, hl]

@[simp] theorem cmdIs_print (c t : String) : cmdIs c (Event.print t) = false := rfl

@[simp] theorem cmdIs_prompt (c t : String) : cmdIs c (Event.prompt t) = false := rfl

@[simp] theorem isGitEv_print (t : String) : isGitEv (Event.print t) = false := rfl

@[simp] theorem isGitEv_prompt (t : String) : isGitEv (Event.prompt t) = false := rfl

@[simp] theorem isMsgPromptEv_print (t : String) : isMsgPromptEv (Event.print t) = false := rfl

@[simp] theorem isMsgPromptEv_git (args : List String) : isMsgPromptEv (Event.git args) = false := rfl

@[simp] theorem isGitEv_git (args : List String) : isGitEv (Event.git args) = true := rfl

@[simp] theorem cmdIs_git_cons (c a : String) (rest : List String) :
    cmdIs c (Event.git (a :: rest)) = (a == c) := rfl

@[simp] theorem isMsgPromptEv_prompt (p : String) :
    isMsgPromptEv (Event.prompt p) = (p == "Re-use the this message (y/N): " || p == "") := rfl

/-- Mapped print events never pass an event test that rejects prints. -/
@[simp] theorem filter_map_print_cmdIs (c : String) (g : String → String) (l : List String) :
    (l.map (fun x => Event.print (g x))).filter (cmdIs c) = [] := by
  apply filter_nil_of_all
  intro e he
  rcases List.mem_map.1 he with ⟨x, _, rfl⟩
  rfl

@[simp] theorem filter_map_print_isGitEv (g : String → String) (l : List String) :
    (l.map (fun x => Event.print (g x))).filter isGitEv = [] := by
  apply filter_nil_of_all
  intro e he
  rcases List.mem_map.1 he with ⟨x, _, rfl⟩
  rfl

@[simp] theorem filter_map_print_isMsgPromptEv (g : String → String) (l : List String) :
    (l.map (fun x => Event.print (g x))).filter isMsgPromptEv = [] := by
  apply filter_nil_of_all
  intro e he
  rcases List.mem_map.1 he with ⟨x, _, rfl⟩
  rfl

@[simp] theorem filter_map_prompt_cmdIs (c : String) (l : List String) :
    (l.map (fun _ => Event.prompt "")).filter (cmdIs c) = [] := by
  apply filter_nil_of_all
  intro e he
  rcases List.mem_map.1 he with ⟨x, _, rfl⟩
  rfl

@[simp] theorem filter_map_prompt_isGitEv (l : List String) :
    (l.map (fun _ => Event.prompt "")).filter isGitEv = [] := by
  apply filter_nil_of_all
  intro e he
  rcases List.mem_map.1 he with ⟨x, _, rfl⟩
  rfl

theorem shape_mret {P : Event → Prop} {α : Type} (a : α) : Shape P (mret a) := by
  intro s
  exact ⟨[], by simp [mret], by simp⟩

theorem shape_mbind {P : Event → Prop} {α β : Type} {x : M α} {f : α → M β}
    (hx : Shape P x) (hf : ∀ a, Shape P (f a)) : Shape P (mbind x f) := by
  intro s
  rcases hx s with ⟨t1, h1, hp1⟩
  cases hxe : x s with
  | ok a s1 =>
      rcases hf a s1 with ⟨t2, h2, hp2⟩
      rw [hxe] at h1
      refine ⟨t1 ++ t2, ?_, ?_⟩
      · have hs1 : s1.trace = s.trace ++ t1 := h1
        simp only [mbind, hxe]
        rw [h2, hs1, List.append_assoc]
      · intro e he
        rcases List.mem_append.1 he with h | h
        · exact hp1 e h
        · exact hp2 e h
  | exit c s1 =>
      rw [hxe] at h1
      refine ⟨t1, ?_, hp1⟩
      simp only [mbind, hxe]
      simpa using h1
  | crash s1 =>
      rw [hxe] at h1
      refine ⟨t1, ?_, hp1⟩
      simp only [mbind, hxe]
      simpa using h1

theorem mem_gitEvents {P : Event → Prop} (args out : List String)
    (hg : P (Event.git args)) (hpr : ∀ t, P (Event.print t)) :
    ∀ e ∈ gitEvents args out, P e := by
  intro e he
  simp only [gitEvents, List.mem_append, List.mem_cons, List.mem_map,
    List.not_mem_nil, or_false] at he
  rcases he with ((rfl | rfl | rfl | rfl) | ⟨x, _, rfl⟩) | rfl
  · exact hpr _
  · exact hpr _
  · exact hg
  · exact hpr _
  · exact hpr _
  · exact hpr _

theorem mem_failEvents {P : Event → Prop} (c : Nat) (hpr : ∀ t, P (Event.print t)) :
    ∀ e ∈ failEvents c, P e := by
  intro e he
  simp only [failEvents, List.mem_cons, List.not_mem_nil, or_false] at he
  rcases he with rfl | rfl
  · exact hpr _
  · exact hpr _

theorem shape_gitCall {P : Event → Prop} (env : Env) (args : List String)
    (hg : P (Event.git args)) (hpr : ∀ t, P (Event.print t)) :
    Shape P (gitCall env args) := by
  intro s
  by_cases hc : (env.oracle s.k args).code ≠ 0
  · refine ⟨gitEvents args (gitLines (env.oracle s.k args))
        ++ failEvents (env.oracle s.k args).code, ?_, ?_⟩
    · simp [gitCall, hc]
    · intro e he
      rcases List.mem_append.1 he with h | h
      · exact mem_gitEvents args _ hg hpr e h
      · exact mem_failEvents _ hpr e h
  · refine ⟨gitEvents args (gitLines (env.oracle s.k args)), ?_, ?_⟩
    · simp [gitCall, hc]
    · exact mem_gitEvents args _ hg hpr

theorem shape_mprint {P : Event → Prop} (t : String) (hpr : P (Event.print t)) :
    Shape P (mprint t) := by
  intro s
  refine ⟨[Event.print t], by simp [mprint], ?_⟩
  intro e he
  rcases List.mem_singleton.1 he with rfl
  exact hpr

theorem shape_readLine {P : Event → Prop} (p : String) (hpr : P (Event.prompt p)) :
    Shape P (readLine p) := by
  intro s
  cases hs : s.stdin with
  | nil =>
      refine ⟨[Event.prompt p], by simp [readLine, hs], ?_⟩
      intro e he
      rcases List.mem_singleton.1 he with rfl
      exact hpr
  | cons a rest =>
      refine ⟨[Event.prompt p], by simp [readLine, hs], ?_⟩
      intro e he
      rcases List.mem_singleton.1 he with rfl
      exact hpr

theorem shape_readAll {P : Event → Prop} (hpr : P (Event.prompt "")) :
    Shape P readAll := by
  intro s
  refine ⟨s.stdin.map (fun _ => Event.prompt "") ++ [Event.prompt ""], by simp [readAll], ?_⟩
  intro e he
  rcases List.mem_append.1 he with h | h
  · rcases List.mem_map.1 h with ⟨x, _, rfl⟩
    exact hpr
  · rcases List.mem_singleton.1 h with rfl
    exact hpr

theorem shape_idx0 {P : Event → Prop} (ls : List String) : Shape P (idx0 ls) := by
  intro s
  cases ls with
  | nil => exact ⟨[], by simp [idx0], by simp⟩
  | cons a l => exact ⟨[], by simp [idx0], by simp⟩

theorem shape_firstLeft {P : Event → Prop} (commits : List String) :
    Shape P (firstLeft commits) := by
  intro s
  cases hf : commits.find? (fun c => pyStartsWith c "<") with
  | none => exact ⟨[], by simp [firstLeft, hf], by simp⟩
  | some c => exact ⟨[], by simp [firstLeft, hf], by simp⟩

theorem shape_ite {P : Event → Prop} {α : Type} (c : Prop) [Decidable c] {x y : M α}
    (hx : Shape P x) (hy : Shape P y) : Shape P (if c then x else y) := by
  split
  · exact hx
  · exact hy

theorem shape_confirm {P : Event → Prop} (p : String) (ay : Bool)
    (hpr : P (Event.prompt p)) : Shape P (confirm p ay) := by
  unfold confirm
  exact shape_ite _ (shape_mret _) (shape_mbind (shape_readLine p hpr) (fun a => shape_mret _))

theorem shape_deletePhase_benign (env : Env) (rm fb : String) (ay : Bool) :
    Shape (fun e => benignB e = true) (deletePhase env rm fb ay) := by
  unfold deletePhase
  refine shape_mbind (shape_confirm _ _ (by decide)) (fun d => ?_)
  refine shape_ite _ ?_ (shape_mret _)
  refine shape_mbind (shape_mprint _ (by decide)) (fun _ => ?_)
  refine shape_mbind (shape_gitCall env _ rfl (fun _ => rfl)) (fun _ => ?_)
  refine shape_mbind (shape_mprint _ (by decide)) (fun _ => ?_)
  exact shape_mbind (shape_gitCall env _ rfl (fun _ => rfl)) (fun _ => shape_mret _)

theorem shape_pushPhase_benign (env : Env) (tb rm fb : String) (ay : Bool) :
    Shape (fun e => benignB e = true) (pushPhase env tb rm fb ay) := by
  unfold pushPhase
  refine shape_mbind (shape_mprint _ (by decide)) (fun _ => ?_)
  refine shape_mbind (shape_gitCall env _ rfl (fun _ => rfl)) (fun _ => ?_)
  refine shape_mbind (shape_mprint _ (by decide)) (fun _ => ?_)
  refine shape_mbind (shape_gitCall env _ rfl (fun _ => rfl)) (fun _ => ?_)
  refine shape_mbind (shape_mprint _ (by decide)) (fun _ => ?_)
  refine shape_mbind (shape_gitCall env _ rfl (fun _ => rfl)) (fun _ => ?_)
  refine shape_mbind (shape_mprint _ (by decide)) (fun _ => ?_)
  refine shape_mbind (shape_gitCall env _ rfl (fun _ => rfl)) (fun _ => ?_)
  exact shape_mbind (shape_deletePhase_benign env rm fb ay) (fun _ => shape_mprint _ (by decide))

/-- Every event in the trace of a state stays in the trace after the push
phase runs from that state. -/
theorem pushPhase_mem (env : Env) (tb rm fb : String) (ay : Bool) (s : St) (e : Event)
    (he : e ∈ s.trace) : e ∈ traceOf (pushPhase env tb rm fb ay s) := by
  rcases shape_pushPhase_benign env tb rm fb ay s with ⟨t, ht, _⟩
  rw [ht]
  exact List.mem_append_left t he

theorem benign_no_cmd (c : String) (hc : c = "merge" ∨ c = "reset" ∨ c = "commit")
    (e : Event) (hb : benignB e = true) : cmdIs c e = false := by
  rcases e with args | p | t
  · rcases args with _ | ⟨a, rest⟩
    · rfl
    · have hb2 : (a == "merge") = false ∧ (a == "reset") = false ∧ (a == "commit") = false := by
        simp only [benignB, cmdIs, isMsgPromptEv, Bool.not_eq_true', Bool.or_eq_false_iff] at hb
        tauto
      rcases hc with rfl | rfl | rfl
      · exact hb2.1
      · exact hb2.2.1
      · exact hb2.2.2
  · rfl
  · rfl

/-- The push phase never issues a merge, reset or commit command, so the
filter for such a command is unchanged by it. -/
theorem pushPhase_filter_cmd (env : Env) (tb rm fb : String) (ay : Bool) (s : St)
    (c : String) (hc : c = "merge" ∨ c = "reset" ∨ c = "commit") :
    (traceOf (pushPhase env tb rm fb ay s)).filter (cmdIs c) = s.trace.filter (cmdIs c) := by
  rcases shape_pushPhase_benign env tb rm fb ay s with ⟨t, ht, hb⟩
  rw [ht, List.filter_append, filter_nil_of_all _ t (fun e he => benign_no_cmd c hc e (hb e he)),
    List.append_nil]

/-- The push phase never prompts for a commit message. -/
theorem pushPhase_filter_msgPrompt (env : Env) (tb rm fb : String) (ay : Bool) (s : St) :
    (traceOf (pushPhase env tb rm fb ay s)).filter isMsgPromptEv = s.trace.filter isMsgPromptEv := by
  rcases shape_pushPhase_benign env tb rm fb ay s with ⟨t, ht, hb⟩
  have hnil : ∀ e ∈ t, isMsgPromptEv e = false := by
    intro e he
    have hb2 := hb e he
    simp only [benignB, Bool.not_eq_true', Bool.or_eq_false_iff] at hb2
    tauto
  rw [ht, List.filter_append, filter_nil_of_all _ t hnil, List.append_nil]

/-- After a fragment that only appends to the trace, the git filter of the
final trace extends the git filter of the starting trace. -/
theorem filter_extend_after {α : Type} (x : M α)
    (hx : Shape (fun _ => True) x) (s : St) (base four : List Event)
    (hbase : s.trace.filter isGitEv = base ++ four) :
    ∃ tail, (traceOf (x s)).filter isGitEv = base ++ (four ++ tail) := by
  rcases hx s with ⟨t, ht, _⟩
  refine ⟨t.filter isGitEv, ?_⟩
  rw [ht, List.filter_append, hbase, List.append_assoc]

/-- Any fragment of this development has the trivial shape. -/
theorem shape_top_of {P : Event → Prop} {α : Type} {x : M α} (hx : Shape P x) :
    Shape (fun _ => True) x := by
  intro s
  rcases hx s with ⟨t, ht, _⟩
  exact ⟨t, ht, fun e _ => trivial⟩

theorem shape_top_deleteTail (env : Env) (rm fb : String) (ay : Bool) :
    Shape (fun _ => True)
      (mbind (deletePhase env rm fb ay) (fun _ => mprint "Good bye.")) := by
  refine shape_mbind (shape_top_of (shape_deletePhase_benign env rm fb ay)) (fun _ => ?_)
  exact shape_mprint _ trivial

theorem onlyExit1_mret {α : Type} (a : α) : OnlyExit1 (mret a) := by
  intro s c s' h
  simp [mret] at h

theorem onlyExit1_mbind {α β : Type} {x : M α} {f : α → M β}
    (hx : OnlyExit1 x) (hf : ∀ a, OnlyExit1 (f a)) : OnlyExit1 (mbind x f) := by
  intro s c s' h
  simp only [mbind] at h
  cases hxe : x s with
  | ok a s1 =>
      rw [hxe] at h
      exact hf a s1 c s' h
  | exit c1 s1 =>
      have hc1 := hx s c1 s1 hxe
      rw [hxe] at h
      injection h with h1 h2
      rw [← h1]
      exact hc1
  | crash s1 =>
      rw [hxe] at h
      cases h

theorem onlyExit1_gitCall (env : Env) (args : List String) : OnlyExit1 (gitCall env args) := by
  intro s c s' h
  simp only [gitCall] at h
  split at h
  · cases h
    rfl
  · cases h

theorem onlyExit1_mprint (t : String) : OnlyExit1 (mprint t) := by
  intro s c s' h
  simp [mprint] at h

theorem onlyExit1_idx0 (ls : List String) : OnlyExit1 (idx0 ls) := by
  intro s c s' h
  cases ls with
  | nil => simp [idx0] at h
  | cons a l => simp [idx0] at h

theorem onlyExit1_readLine (p : String) : OnlyExit1 (readLine p) := by
  intro s c s' h
  simp only [readLine] at h
  cases hs : s.stdin with
  | nil => rw [hs] at h; cases h
  | cons a rest => rw [hs] at h; cases h

theorem onlyExit1_readAll : OnlyExit1 readAll := by
  intro s c s' h
  simp [readAll] at h

theorem onlyExit1_firstLeft (commits : List String) : OnlyExit1 (firstLeft commits) := by
  intro s c s' h
  simp only [firstLeft] at h
  cases hf : commits.find? (fun x => pyStartsWith x "<") with
  | none => rw [hf] at h; cases h
  | some v => rw [hf] at h; cases h

theorem onlyExit1_ite {α : Type} (c : Prop) [Decidable c] {x y : M α}
    (hx : OnlyExit1 x) (hy : OnlyExit1 y) : OnlyExit1 (if c then x else y) := by
  split
  · exact hx
  · exact hy

theorem onlyExit1_confirm (p : String) (ay : Bool) : OnlyExit1 (confirm p ay) := by
  unfold confirm
  exact onlyExit1_ite _ (onlyExit1_mret _)
    (onlyExit1_mbind (onlyExit1_readLine p) (fun a => onlyExit1_mret _))

theorem onlyExit1_resolveMessage (msg0 : Option String) (ay : Bool) (m0 : String) :
    OnlyExit1 (resolveMessage msg0 ay m0) := by
  unfold resolveMessage
  refine onlyExit1_ite _ ?_ (onlyExit1_mret _)
  refine onlyExit1_mbind (onlyExit1_mprint _) (fun _ => ?_)
  refine onlyExit1_mbind (onlyExit1_mprint _) (fun _ => ?_)
  refine onlyExit1_mbind (onlyExit1_mprint _) (fun _ => ?_)
  refine onlyExit1_mbind (onlyExit1_mprint _) (fun _ => ?_)
  refine onlyExit1_mbind (onlyExit1_mprint _) (fun _ => ?_)
  refine onlyExit1_mbind (onlyExit1_mprint _) (fun _ => ?_)
  refine onlyExit1_mbind (onlyExit1_confirm _ _) (fun c => ?_)
  refine onlyExit1_ite _ ?_ ?_
  · exact onlyExit1_mbind (onlyExit1_mprint _) (fun _ => onlyExit1_mret _)
  · refine onlyExit1_mbind (onlyExit1_mprint _) (fun _ => ?_)
    exact onlyExit1_mbind onlyExit1_readAll (fun _ => onlyExit1_mret _)

theorem onlyExit1_deletePhase (env : Env) (rm fb : String) (ay : Bool) :
    OnlyExit1 (deletePhase env rm fb ay) := by
  unfold deletePhase
  refine onlyExit1_mbind (onlyExit1_confirm _ _) (fun d => ?_)
  refine onlyExit1_ite _ ?_ (onlyExit1_mret _)
  refine onlyExit1_mbind (onlyExit1_mprint _) (fun _ => ?_)
  refine onlyExit1_mbind (onlyExit1_gitCall env _) (fun _ => ?_)
  refine onlyExit1_mbind (onlyExit1_mprint _) (fun _ => ?_)
  exact onlyExit1_mbind (onlyExit1_gitCall env _) (fun _ => onlyExit1_mret _)

theorem onlyExit1_pushPhase (env : Env) (tb rm fb : String) (ay : Bool) :
    OnlyExit1 (pushPhase env tb rm fb ay) := by
  unfold pushPhase
  refine onlyExit1_mbind (onlyExit1_mprint _) (fun _ => ?_)
  refine onlyExit1_mbind (onlyExit1_gitCall env _) (fun _ => ?_)
  refine onlyExit1_mbind (onlyExit1_mprint _) (fun _ => ?_)
  refine onlyExit1_mbind (onlyExit1_gitCall env _) (fun _ => ?_)
  refine onlyExit1_mbind (onlyExit1_mprint _) (fun _ => ?_)
  refine onlyExit1_mbind (onlyExit1_gitCall env _) (fun _ => ?_)
  refine onlyExit1_mbind (onlyExit1_mprint _) (fun _ => ?_)
  refine onlyExit1_mbind (onlyExit1_gitCall env _) (fun _ => ?_)
  exact onlyExit1_mbind (onlyExit1_deletePhase env rm fb ay) (fun _ => onlyExit1_mprint _)

theorem onlyExit1_squashPhase (env : Env) (tb rm fc : String) (msg0 : Option String) (ay : Bool) :
    OnlyExit1 (squashPhase env tb rm fc msg0 ay) := by
  unfold squashPhase
  refine onlyExit1_mbind (onlyExit1_gitCall env _) (fun _ => ?_)
  refine onlyExit1_mbind (onlyExit1_mprint _) (fun _ => ?_)
  refine onlyExit1_mbind (onlyExit1_gitCall env _) (fun _ => ?_)
  refine onlyExit1_mbind (onlyExit1_mprint _) (fun _ => ?_)
  refine onlyExit1_mbind (onlyExit1_gitCall env _) (fun _ => ?_)
  refine onlyExit1_mbind (onlyExit1_resolveMessage _ _ _) (fun m => ?_)
  exact onlyExit1_mbind (onlyExit1_gitCall env _) (fun _ => onlyExit1_mret _)

theorem onlyExit1_mergePull (env : Env) (tb rm : String) (msg0 : Option String) (ay : Bool) :
    OnlyExit1 (mergePull env tb rm msg0 ay) := by
  unfold mergePull
  refine onlyExit1_mbind (onlyExit1_gitCall env _) (fun _ => ?_)
  refine onlyExit1_mbind (onlyExit1_idx0 _) (fun fb => ?_)
  refine onlyExit1_mbind (onlyExit1_gitCall env _) (fun _ => ?_)
  refine onlyExit1_mbind (onlyExit1_idx0 _) (fun tr => ?_)
  refine onlyExit1_mbind (onlyExit1_gitCall env _) (fun _ => ?_)
  refine onlyExit1_mbind (onlyExit1_idx0 _) (fun fr => ?_)
  refine onlyExit1_mbind (onlyExit1_mprint _) (fun _ => ?_)
  refine onlyExit1_ite _ ?_ ?_
  · intro s c s' h
    cases h
    rfl
  · refine onlyExit1_mbind (onlyExit1_mprint _) (fun _ => ?_)
    refine onlyExit1_mbind (onlyExit1_gitCall env _) (fun _ => ?_)
    refine onlyExit1_mbind (onlyExit1_gitCall env _) (fun commits => ?_)
    refine onlyExit1_mbind (onlyExit1_firstLeft _) (fun fc => ?_)
    refine onlyExit1_mbind (onlyExit1_gitCall env _) (fun _ => ?_)
    refine onlyExit1_mbind (onlyExit1_idx0 _) (fun h => ?_)
    refine onlyExit1_mbind ?_ (fun _ => onlyExit1_pushPhase env tb rm _ ay)
    refine onlyExit1_ite _ ?_ (onlyExit1_squashPhase env tb rm _ msg0 ay)
    refine onlyExit1_mbind (onlyExit1_mprint _) (fun _ => ?_)
    exact onlyExit1_mbind (onlyExit1_gitCall env _) (fun _ => onlyExit1_mret _)

/-- C3: whenever the three identity queries succeed and the target branch
and the current branch resolve to the same commit identifier, the program
prints the message instructing the user to check out the feature branch and
exits with code 1, having issued only the three rev-parse commands — in
particular no fetch and no push. -/
theorem c3_same_ref_guard (env : Env) (stdin : List String) (tb rm : String)
    (msg0 : Option String) (ay : Bool) (r0 r1 r2 : GitResult) (fb ref : String)
    (t0 t1 t2 : List String)
    (h0 : env.oracle 0 ["rev-parse", "--abbrev-ref", "--verify", "HEAD"] = r0)
    (hc0 : r0.code = 0) (hl0 : gitLines r0 = fb :: t0)
    (h1 : env.oracle 1 ["rev-parse", tb] = r1)
    (hc1 : r1.code = 0) (hl1 : gitLines r1 = ref :: t1)
    (h2 : env.oracle 2 ["rev-parse", fb] = r2)
    (hc2 : r2.code = 0) (hl2 : gitLines r2 = ref :: t2) :
    exitCodeOf (runTool env stdin tb rm msg0 ay) = 1 ∧
    Event.print "Target branch and HEAD point to the same ref. Make sure you are on your feature branch."
      ∈ traceOf (runTool env stdin tb rm msg0 ay) ∧
    (traceOf (runTool env stdin tb rm msg0 ay)).filter isGitEv =
      [Event.git ["rev-parse", "--abbrev-ref", "--verify", "HEAD"],
       Event.git ["rev-parse", tb], Event.git ["rev-parse", fb]] := by
  refine ⟨?_, ?_, ?_⟩ <;>
    simp [runTool, mergePull, mbind, gitCall, idx0, mprint, St.init, stGit, stPrint,
      gitEvents, List.filter_append, List.filter_cons, h0, hc0, hl0, h1, hc1, hl1,
      h2, hc2, hl2]

/-- Concrete instance of the same-ref guard theorem. -/
theorem c3_same_ref_guard_witness :
    exitCodeOf (runTool envSameRef [] "master" "origin" none false) = 1 ∧
    Event.print "Target branch and HEAD point to the same ref. Make sure you are on your feature branch."
      ∈ traceOf (runTool envSameRef [] "master" "origin" none false) ∧
    (traceOf (runTool envSameRef [] "master" "origin" none false)).filter isGitEv =
      [Event.git ["rev-parse", "--abbrev-ref", "--verify", "HEAD"],
       Event.git ["rev-parse", "master"], Event.git ["rev-parse", "feat"]] :=
  c3_same_ref_guard envSameRef [] "master" "origin" none false
    ⟨0, ["feat\n"]⟩ ⟨0, ["aaa\n"]⟩ ⟨0, ["aaa\n"]⟩ "feat" "aaa" [] [] []
    rfl rfl (by decide) rfl rfl (by decide) rfl rfl (by decide)

/-- C4: when the external command behind a runner invocation exits with a
non-zero code, the runner prints a diagnostic naming that exit code and the
whole program terminates with exit code 1 no matter what continuation
follows; when the command exits zero, the runner returns the captured lines
and the program continues with them. -/
theorem c4_runner_fail_fast (env : Env) (args : List String) (s : St) (r : GitResult)
    (h : env.oracle s.k args = r) :
    (r.code ≠ 0 → ∀ (β : Type) (f : List String → M β),
       mbind (gitCall env args) f s = RunRes.exit 1 (stGitFail s args (gitLines r) r.code) ∧
       Event.print ("Git command terminated with exit code " ++ toString r.code ++ ".")
         ∈ (stGitFail s args (gitLines r) r.code).trace) ∧
    (r.code = 0 →
       gitCall env args s = RunRes.ok (gitLines r) (stGit s args (gitLines r))) := by
  constructor
  · intro hc β f
    constructor
    · simp [mbind, gitCall, h, hc]
    · simp [stGitFail, failEvents]
  · intro hc
    simp [gitCall, h, hc]

/-- Concrete instance of the runner fail-fast theorem, on both sides. -/
theorem c4_runner_fail_fast_witness :
    (mbind (gitCall envFail ["status"]) (fun _ => mret ()) (St.init []) =
       RunRes.exit 1 (stGitFail (St.init []) ["status"] ["boom"] 3) ∧
     Event.print "Git command terminated with exit code 3."
       ∈ (stGitFail (St.init []) ["status"] ["boom"] 3).trace) ∧
    gitCall envSameRef ["rev-parse", "--abbrev-ref", "--verify", "HEAD"] (St.init []) =
      RunRes.ok ["feat"] (stGit (St.init []) ["rev-parse", "--abbrev-ref", "--verify", "HEAD"] ["feat"]) :=
  ⟨(c4_runner_fail_fast envFail ["status"] (St.init []) ⟨3, ["boom\n"]⟩ rfl).1
      (by decide) Unit (fun _ => mret ()),
   (c4_runner_fail_fast envSameRef ["rev-parse", "--abbrev-ref", "--verify", "HEAD"]
      (St.init []) ⟨0, ["feat\n"]⟩ rfl).2 rfl⟩

/-- A list all of whose elements pass the test is its own takeWhile. -/
theorem takeWhile_all {α : Type} (p : α → Bool) :
    ∀ l : List α, (∀ x ∈ l, p x = true) → l.takeWhile p = l
  | [], _ => rfl
  | a :: l, h => by
      have ha := h a (List.mem_cons_self a l)
      have hl := takeWhile_all p l (fun x hx => h x (List.mem_cons_of_mem a hx))
      simp [List.takeWhile_cons, ha, hl]

/-- C8: a successful runner invocation returns exactly the output lines of
the subprocess (standard error having been merged into standard output by
the invocation itself), each trimmed of trailing whitespace, in arrival
order.  The hypothesis that no raw line is empty reflects that readline
yields an empty string only at end of stream. -/
theorem c8_runner_output_lines (env : Env) (args : List String) (s : St) (r : GitResult)
    (h : env.oracle s.k args = r) (hc : r.code = 0) (hne : "" ∉ r.rawLines) :
    gitCall env args s =
      RunRes.ok (r.rawLines.map rstrip) (stGit s args (r.rawLines.map rstrip)) := by
  have htw : r.rawLines.takeWhile (fun l => l != "") = r.rawLines := by
    apply takeWhile_all
    intro x hx
    have hxne : x ≠ "" := by
      intro hxe
      rw [hxe] at hx
      exact hne hx
    simp [hxne]
  simp [gitCall, h, hc, gitLines, htw]

/-- Concrete instance of the runner output theorem. -/
theorem c8_runner_output_lines_witness :
    gitCall envSameRef ["rev-parse", "--abbrev-ref", "--verify", "HEAD"] (St.init []) =
      RunRes.ok ["feat"] (stGit (St.init []) ["rev-parse", "--abbrev-ref", "--verify", "HEAD"] ["feat"]) :=
  c8_runner_output_lines envSameRef ["rev-parse", "--abbrev-ref", "--verify", "HEAD"]
    (St.init []) ⟨0, ["feat\n"]⟩ rfl rfl (by decide)

/-- C10: the confirmation idiom shared by the reuse-message prompt of line
120 and the delete-branches prompt of line 148: under assume-yes the answer
is affirmative and no input is read; otherwise exactly an input whose
lowercasing is the single letter y counts as affirmative, so y and Y are
affirmative while yes and the empty input are negative. -/
theorem c10_confirm_semantics (p : String) (s : St) :
    confirm p true s = RunRes.ok true s ∧
    (∀ a rest, s.stdin = a :: rest →
      confirm p false s =
        RunRes.ok (pyLower a == "y") ⟨s.k, rest, s.trace ++ [Event.prompt p]⟩) ∧
    (pyLower "y" == "y") = true ∧ (pyLower "Y" == "y") = true ∧
    (pyLower "yes" == "y") = false ∧ (pyLower "" == "y") = false := by
  refine ⟨rfl, ?_, by decide, by decide, by decide, by decide⟩
  intro a rest hs
  simp [confirm, mbind, readLine, hs, mret]

/-- Concrete instance of the confirmation semantics. -/
theorem c10_confirm_semantics_witness :
    confirm "Delete feature branches (y/N): " true ⟨0, ["yes"], []⟩ =
      RunRes.ok true ⟨0, ["yes"], []⟩ ∧
    confirm "Delete feature branches (y/N): " false ⟨0, ["yes"], []⟩ =
      RunRes.ok false ⟨0, [], [Event.prompt "Delete feature branches (y/N): "]⟩ :=
  ⟨(c10_confirm_semantics "Delete feature branches (y/N): " ⟨0, ["yes"], []⟩).1,
   (c10_confirm_semantics "Delete feature branches (y/N): " ⟨0, ["yes"], []⟩).2.1 "yes" [] rfl⟩

/-- C6 counterexample: invoking the program with the unrecognized option
--bogus makes argument parsing fail, and argparse terminates the process
with exit code 2, which is neither 0 nor 1 — so exit codes other than 0
and 1 are produced. -/
theorem c6_usage_error_exit_two :
    mainExit ["--bogus"] envSameRef [] = 2 ∧ (2 : Nat) ≠ 0 ∧ (2 : Nat) ≠ 1 :=
  ⟨rfl, by decide, by decide⟩

/-- C6 amended: the process exit code is always 0, 1 or 2; it is 2 exactly
when command-line parsing rejects the arguments, 0 when help is requested,
and otherwise 0 on full success and 1 on any external command failure, on
the same-ref guard, and on an unhandled crash. -/
theorem c6_exit_codes (argv : List String) (env : Env) (stdin : List String) :
    (mainExit argv env stdin = 0 ∨ mainExit argv env stdin = 1 ∨ mainExit argv env stdin = 2) ∧
    (parseArgs argv = ParseOut.usageError → mainExit argv env stdin = 2) ∧
    (parseArgs argv = ParseOut.help → mainExit argv env stdin = 0) := by
  refine ⟨?_, ?_, ?_⟩
  · unfold mainExit
    cases hp : parseArgs argv with
    | help => simp
    | usageError => simp
    | parsed tb rm msg ay =>
        cases hr : runTool env stdin tb rm msg ay with
        | ok a s => simp [exitCodeOf, hr]
        | exit c s =>
            have hrm : mergePull env tb rm msg ay (St.init stdin) = RunRes.exit c s := hr
            have hc : c = 1 := onlyExit1_mergePull env tb rm msg ay (St.init stdin) c s hrm
            simp [exitCodeOf, hr, hc]
        | crash s => simp [exitCodeOf, hr]
  · intro hp
    simp [mainExit, hp]
  · intro hp
    simp [mainExit, hp]

/-- Concrete instances of the exit-code theorem: a successful parse, a
usage error, and a help request. -/
theorem c6_exit_codes_witness :
    (mainExit ["-y"] envSameRef [] = 0 ∨ mainExit ["-y"] envSameRef [] = 1 ∨
      mainExit ["-y"] envSameRef [] = 2) ∧
    mainExit ["--bogus"] envFail [] = 2 ∧
    mainExit ["-h"] envFail [] = 0 :=
  ⟨(c6_exit_codes ["-y"] envSameRef []).1,
   (c6_exit_codes ["--bogus"] envFail []).2.1 rfl,
   (c6_exit_codes ["-h"] envFail []).2.2 rfl⟩

/-- C2: when the divergence query finds a first local-side commit equal to
HEAD (the branch is exactly one commit ahead), the run performs the rebase
onto the remote target branch and — across the entire run, whether or not
the rebase itself succeeds — issues no merge, no reset, no commit, and
never shows a commit-message prompt, for any message option and any
assume-yes setting. -/
theorem c2_single_commit_rebase_only (env : Env) (stdin : List String) (tb rm : String)
    (msg0 : Option String) (ay : Bool)
    (r0 r1 r2 r3 r4 r5 r6 : GitResult) (fb tr fr cm hd : String)
    (t0 t1 t2 t5 : List String)
    (h0 : env.oracle 0 ["rev-parse", "--abbrev-ref", "--verify", "HEAD"] = r0)
    (hc0 : r0.code = 0) (hl0 : gitLines r0 = fb :: t0)
    (h1 : env.oracle 1 ["rev-parse", tb] = r1) (hc1 : r1.code = 0) (hl1 : gitLines r1 = tr :: t1)
    (h2 : env.oracle 2 ["rev-parse", fb] = r2) (hc2 : r2.code = 0) (hl2 : gitLines r2 = fr :: t2)
    (hne : tr ≠ fr)
    (h3 : env.oracle 3 ["fetch", rm] = r3) (hc3 : r3.code = 0)
    (h4 : env.oracle 4 ["rev-list", "--left-right", "--reverse", "HEAD..." ++ rm ++ "/" ++ tb] = r4)
    (hc4 : r4.code = 0)
    (hfind : (gitLines r4).find? (fun c => pyStartsWith c "<") = some cm)
    (h5 : env.oracle 5 ["rev-parse", "HEAD"] = r5) (hc5 : r5.code = 0) (hl5 : gitLines r5 = hd :: t5)
    (heq : cm.drop 1 = hd)
    (h6 : env.oracle 6 ["rebase", rm ++ "/" ++ tb] = r6) :
    Event.git ["rebase", rm ++ "/" ++ tb] ∈ traceOf (runTool env stdin tb rm msg0 ay) ∧
    (traceOf (runTool env stdin tb rm msg0 ay)).filter (cmdIs "merge") = [] ∧
    (traceOf (runTool env stdin tb rm msg0 ay)).filter (cmdIs "reset") = [] ∧
    (traceOf (runTool env stdin tb rm msg0 ay)).filter (cmdIs "commit") = [] ∧
    (traceOf (runTool env stdin tb rm msg0 ay)).filter isMsgPromptEv = [] := by
  by_cases hc6 : r6.code = 0
  · have run_eq : runTool env stdin tb rm msg0 ay =
        pushPhase env tb rm fb ay
          (stGit (stPrint (stGit (stGit (stGit (stPrint (stPrint (stGit (stGit (stGit
            (St.init stdin)
            ["rev-parse", "--abbrev-ref", "--verify", "HEAD"] (fb :: t0))
            ["rev-parse", tb] (tr :: t1))
            ["rev-parse", fb] (fr :: t2))
            ("Merging pull request for branch " ++ fb ++ " with target branch " ++ tb ++ "..."))
            "Fetching upstream changes...")
            ["fetch", rm] (gitLines r3))
            ["rev-list", "--left-right", "--reverse", "HEAD..." ++ rm ++ "/" ++ tb] (gitLines r4))
            ["rev-parse", "HEAD"] (hd :: t5))
            "Rebasing commit(s)...")
            ["rebase", rm ++ "/" ++ tb] (gitLines r6)) := by
      simp [runTool, mergePull, mbind, gitCall, idx0, mprint, firstLeft, mret,
        h0, hc0, hl0, h1, hc1, hl1, h2, hc2, hl2, hne, h3, hc3, h4, hc4, hfind,
        h5, hc5, hl5, heq, h6, hc6]
    refine ⟨?_, ?_, ?_, ?_, ?_⟩
    · rw [run_eq]
      apply pushPhase_mem
      simp [stGit, stPrint, gitEvents, St.init]
    · rw [run_eq, pushPhase_filter_cmd env tb rm fb ay _ "merge" (Or.inl rfl)]
      simp [stGit, stPrint, gitEvents, St.init, List.filter_append, List.filter_cons]
    · rw [run_eq, pushPhase_filter_cmd env tb rm fb ay _ "reset" (Or.inr (Or.inl rfl))]
      simp [stGit, stPrint, gitEvents, St.init, List.filter_append, List.filter_cons]
    · rw [run_eq, pushPhase_filter_cmd env tb rm fb ay _ "commit" (Or.inr (Or.inr rfl))]
      simp [stGit, stPrint, gitEvents, St.init, List.filter_append, List.filter_cons]
    · rw [run_eq, pushPhase_filter_msgPrompt env tb rm fb ay _]
      simp [stGit, stPrint, gitEvents, St.init, List.filter_append, List.filter_cons]
  · have run_eq : runTool env stdin tb rm msg0 ay =
        RunRes.exit 1
          (stGitFail (stPrint (stGit (stGit (stGit (stPrint (stPrint (stGit (stGit (stGit
            (St.init stdin)
            ["rev-parse", "--abbrev-ref", "--verify", "HEAD"] (fb :: t0))
            ["rev-parse", tb] (tr :: t1))
            ["rev-parse", fb] (fr :: t2))
            ("Merging pull request for branch " ++ fb ++ " with target branch " ++ tb ++ "..."))
            "Fetching upstream changes...")
            ["fetch", rm] (gitLines r3))
            ["rev-list", "--left-right", "--reverse", "HEAD..." ++ rm ++ "/" ++ tb] (gitLines r4))
            ["rev-parse", "HEAD"] (hd :: t5))
            "Rebasing commit(s)...")
            ["rebase", rm ++ "/" ++ tb] (gitLines r6) r6.code) := by
      simp [runTool, mergePull, mbind, gitCall, idx0, mprint, firstLeft, mret,
        h0, hc0, hl0, h1, hc1, hl1, h2, hc2, hl2, hne, h3, hc3, h4, hc4, hfind,
        h5, hc5, hl5, heq, h6, hc6]
    refine ⟨?_, ?_, ?_, ?_, ?_⟩ <;>
      rw [run_eq] <;>
      simp [stGit, stPrint, stGitFail, gitEvents, failEvents, St.init,
        List.filter_append, List.filter_cons]

/-- Concrete instance of the one-commit rebase theorem. -/
theorem c2_single_commit_rebase_only_witness :
    Event.git ["rebase", "origin/master"]
      ∈ traceOf (runTool envOneCommit [] "master" "origin" none false) ∧
    (traceOf (runTool envOneCommit [] "master" "origin" none false)).filter (cmdIs "merge") = [] ∧
    (traceOf (runTool envOneCommit [] "master" "origin" none false)).filter (cmdIs "reset") = [] ∧
    (traceOf (runTool envOneCommit [] "master" "origin" none false)).filter (cmdIs "commit") = [] ∧
    (traceOf (runTool envOneCommit [] "master" "origin" none false)).filter isMsgPromptEv = [] :=
  c2_single_commit_rebase_only envOneCommit [] "master" "origin" none false
    ⟨0, ["feat\n"]⟩ ⟨0, ["aaa\n"]⟩ ⟨0, ["bbb\n"]⟩ ⟨0, []⟩ ⟨0, ["<ccc\n"]⟩ ⟨0, ["ccc\n"]⟩ ⟨0, []⟩
    "feat" "aaa" "bbb" "<ccc" "ccc" [] [] [] []
    rfl rfl (by decide) rfl rfl (by decide) rfl rfl (by decide) (by decide)
    rfl rfl rfl rfl (by decide) rfl rfl (by decide) (by decide) rfl

/-- C5: the first unique local commit is the first entry of the
reverse-ordered left-right revision list carrying the left marker, with the
marker stripped; and when the divergence list contains no left-marked entry
the run fails with an unhandled exception right after the rev-list command,
the selection being unguarded. -/
theorem c5_first_left_selection (env : Env) (stdin : List String) (tb rm : String)
    (msg0 : Option String) (ay : Bool)
    (r0 r1 r2 r3 r4 : GitResult) (fb tr fr : String) (t0 t1 t2 : List String)
    (h0 : env.oracle 0 ["rev-parse", "--abbrev-ref", "--verify", "HEAD"] = r0)
    (hc0 : r0.code = 0) (hl0 : gitLines r0 = fb :: t0)
    (h1 : env.oracle 1 ["rev-parse", tb] = r1) (hc1 : r1.code = 0) (hl1 : gitLines r1 = tr :: t1)
    (h2 : env.oracle 2 ["rev-parse", fb] = r2) (hc2 : r2.code = 0) (hl2 : gitLines r2 = fr :: t2)
    (hne : tr ≠ fr)
    (h3 : env.oracle 3 ["fetch", rm] = r3) (hc3 : r3.code = 0)
    (h4 : env.oracle 4 ["rev-list", "--left-right", "--reverse", "HEAD..." ++ rm ++ "/" ++ tb] = r4)
    (hc4 : r4.code = 0)
    (hnone : (gitLines r4).find? (fun c => pyStartsWith c "<") = none) :
    (∃ s5, runTool env stdin tb rm msg0 ay = RunRes.crash s5 ∧
       s5.trace.filter isGitEv =
         [Event.git ["rev-parse", "--abbrev-ref", "--verify", "HEAD"],
          Event.git ["rev-parse", tb], Event.git ["rev-parse", fb],
          Event.git ["fetch", rm],
          Event.git ["rev-list", "--left-right", "--reverse", "HEAD..." ++ rm ++ "/" ++ tb]]) ∧
    (∀ (commits : List String) (cm : String) (s : St),
       commits.find? (fun c => pyStartsWith c "<") = some cm →
       firstLeft commits s = RunRes.ok (cm.drop 1) s) := by
  constructor
  · have run_eq : runTool env stdin tb rm msg0 ay =
        RunRes.crash
          (stGit (stGit (stPrint (stPrint (stGit (stGit (stGit
            (St.init stdin)
            ["rev-parse", "--abbrev-ref", "--verify", "HEAD"] (fb :: t0))
            ["rev-parse", tb] (tr :: t1))
            ["rev-parse", fb] (fr :: t2))
            ("Merging pull request for branch " ++ fb ++ " with target branch " ++ tb ++ "..."))
            "Fetching upstream changes...")
            ["fetch", rm] (gitLines r3))
            ["rev-list", "--left-right", "--reverse", "HEAD..." ++ rm ++ "/" ++ tb] (gitLines r4)) := by
      simp [runTool, mergePull, mbind, gitCall, idx0, mprint, firstLeft, mret,
        h0, hc0, hl0, h1, hc1, hl1, h2, hc2, hl2, hne, h3, hc3, h4, hc4, hnone]
    refine ⟨_, run_eq, ?_⟩
    simp [stGit, stPrint, gitEvents, St.init, List.filter_append, List.filter_cons]
  · intro commits cm s hf
    simp [firstLeft, hf]

/-- Concrete instance of the first-left selection theorem. -/
theorem c5_first_left_selection_witness :
    (∃ s5, runTool envNoLeft [] "master" "origin" none false = RunRes.crash s5 ∧
       s5.trace.filter isGitEv =
         [Event.git ["rev-parse", "--abbrev-ref", "--verify", "HEAD"],
          Event.git ["rev-parse", "master"], Event.git ["rev-parse", "feat"],
          Event.git ["fetch", "origin"],
          Event.git ["rev-list", "--left-right", "--reverse", "HEAD...origin/master"]]) ∧
    (∀ (commits : List String) (cm : String) (s : St),
       commits.find? (fun c => pyStartsWith c "<") = some cm →
       firstLeft commits s = RunRes.ok (cm.drop 1) s) :=
  c5_first_left_selection envNoLeft [] "master" "origin" none false
    ⟨0, ["feat\n"]⟩ ⟨0, ["aaa\n"]⟩ ⟨0, ["bbb\n"]⟩ ⟨0, []⟩ ⟨0, [">ddd\n"]⟩
    "feat" "aaa" "bbb" [] [] []
    rfl rfl (by decide) rfl rfl (by decide) rfl rfl (by decide) (by decide)
    rfl rfl rfl rfl (by decide)

/-- C9: each of the four rev-parse results is indexed at position 0 with no
emptiness guard, so a successful rev-parse with no output lines crashes the
run with an unhandled exception at that point. -/
theorem c9_rev_parse_indexing (env : Env) (stdin : List String) (tb rm : String)
    (msg0 : Option String) (ay : Bool) :
    (∀ r0, env.oracle 0 ["rev-parse", "--abbrev-ref", "--verify", "HEAD"] = r0 →
       r0.code = 0 → gitLines r0 = [] →
       ∃ s, runTool env stdin tb rm msg0 ay = RunRes.crash s ∧
         s.trace.filter isGitEv = [Event.git ["rev-parse", "--abbrev-ref", "--verify", "HEAD"]]) ∧
    (∀ r0 fb t0 r1, env.oracle 0 ["rev-parse", "--abbrev-ref", "--verify", "HEAD"] = r0 →
       r0.code = 0 → gitLines r0 = fb :: t0 →
       env.oracle 1 ["rev-parse", tb] = r1 → r1.code = 0 → gitLines r1 = [] →
       ∃ s, runTool env stdin tb rm msg0 ay = RunRes.crash s ∧
         s.trace.filter isGitEv = [Event.git ["rev-parse", "--abbrev-ref", "--verify", "HEAD"],
           Event.git ["rev-parse", tb]]) ∧
    (∀ r0 fb t0 r1 tr t1 r2, env.oracle 0 ["rev-parse", "--abbrev-ref", "--verify", "HEAD"] = r0 →
       r0.code = 0 → gitLines r0 = fb :: t0 →
       env.oracle 1 ["rev-parse", tb] = r1 → r1.code = 0 → gitLines r1 = tr :: t1 →
       env.oracle 2 ["rev-parse", fb] = r2 → r2.code = 0 → gitLines r2 = [] →
       ∃ s, runTool env stdin tb rm msg0 ay = RunRes.crash s ∧
         s.trace.filter isGitEv = [Event.git ["rev-parse", "--abbrev-ref", "--verify", "HEAD"],
           Event.git ["rev-parse", tb], Event.git ["rev-parse", fb]]) ∧
    (∀ r0 fb t0 r1 tr t1 r2 fr t2 r3 r4 cm r5,
       env.oracle 0 ["rev-parse", "--abbrev-ref", "--verify", "HEAD"] = r0 →
       r0.code = 0 → gitLines r0 = fb :: t0 →
       env.oracle 1 ["rev-parse", tb] = r1 → r1.code = 0 → gitLines r1 = tr :: t1 →
       env.oracle 2 ["rev-parse", fb] = r2 → r2.code = 0 → gitLines r2 = fr :: t2 →
       tr ≠ fr →
       env.oracle 3 ["fetch", rm] = r3 → r3.code = 0 →
       env.oracle 4 ["rev-list", "--left-right", "--reverse", "HEAD..." ++ rm ++ "/" ++ tb] = r4 →
       r4.code = 0 →
       (gitLines r4).find? (fun c => pyStartsWith c "<") = some cm →
       env.oracle 5 ["rev-parse", "HEAD"] = r5 → r5.code = 0 → gitLines r5 = [] →
       ∃ s, runTool env stdin tb rm msg0 ay = RunRes.crash s ∧
         s.trace.filter isGitEv = [Event.git ["rev-parse", "--abbrev-ref", "--verify", "HEAD"],
           Event.git ["rev-parse", tb], Event.git ["rev-parse", fb],
           Event.git ["fetch", rm],
           Event.git ["rev-list", "--left-right", "--reverse", "HEAD..." ++ rm ++ "/" ++ tb],
           Event.git ["rev-parse", "HEAD"]]) := by
  refine ⟨?_, ?_, ?_, ?_⟩
  · intro r0 h0 hc0 hl0
    have run_eq : runTool env stdin tb rm msg0 ay =
        RunRes.crash (stGit (St.init stdin)
          ["rev-parse", "--abbrev-ref", "--verify", "HEAD"] []) := by
      simp [runTool, mergePull, mbind, gitCall, idx0, h0, hc0, hl0]
    refine ⟨_, run_eq, ?_⟩
    simp [stGit, gitEvents, St.init, List.filter_append, List.filter_cons]
  · intro r0 fb t0 r1 h0 hc0 hl0 h1 hc1 hl1
    have run_eq : runTool env stdin tb rm msg0 ay =
        RunRes.crash (stGit (stGit (St.init stdin)
          ["rev-parse", "--abbrev-ref", "--verify", "HEAD"] (fb :: t0))
          ["rev-parse", tb] []) := by
      simp [runTool, mergePull, mbind, gitCall, idx0, h0, hc0, hl0, h1, hc1, hl1]
    refine ⟨_, run_eq, ?_⟩
    simp [stGit, gitEvents, St.init, List.filter_append, List.filter_cons]
  · intro r0 fb t0 r1 tr t1 r2 h0 hc0 hl0 h1 hc1 hl1 h2 hc2 hl2
    have run_eq : runTool env stdin tb rm msg0 ay =
        RunRes.crash (stGit (stGit (stGit (St.init stdin)
          ["rev-parse", "--abbrev-ref", "--verify", "HEAD"] (fb :: t0))
          ["rev-parse", tb] (tr :: t1))
          ["rev-parse", fb] []) := by
      simp [runTool, mergePull, mbind, gitCall, idx0, h0, hc0, hl0, h1, hc1, hl1, h2, hc2, hl2]
    refine ⟨_, run_eq, ?_⟩
    simp [stGit, gitEvents, St.init, List.filter_append, List.filter_cons]
  · intro r0 fb t0 r1 tr t1 r2 fr t2 r3 r4 cm r5 h0 hc0 hl0 h1 hc1 hl1 h2 hc2 hl2 hne h3 hc3 h4 hc4 hfind h5 hc5 hl5
    have run_eq : runTool env stdin tb rm msg0 ay =
        RunRes.crash (stGit (stGit (stGit (stPrint (stPrint (stGit (stGit (stGit
          (St.init stdin)
          ["rev-parse", "--abbrev-ref", "--verify", "HEAD"] (fb :: t0))
          ["rev-parse", tb] (tr :: t1))
          ["rev-parse", fb] (fr :: t2))
          ("Merging pull request for branch " ++ fb ++ " with target branch " ++ tb ++ "..."))
          "Fetching upstream changes...")
          ["fetch", rm] (gitLines r3))
          ["rev-list", "--left-right", "--reverse", "HEAD..." ++ rm ++ "/" ++ tb] (gitLines r4))
          ["rev-parse", "HEAD"] []) := by
      simp [runTool, mergePull, mbind, gitCall, idx0, mprint, firstLeft, mret,
        h0, hc0, hl0, h1, hc1, hl1, h2, hc2, hl2, hne, h3, hc3, h4, hc4, hfind, h5, hc5, hl5]
    refine ⟨_, run_eq, ?_⟩
    simp [stGit, stPrint, gitEvents, St.init, List.filter_append, List.filter_cons]

/-- Concrete instances of all four unguarded-indexing crashes. -/
theorem c9_rev_parse_indexing_witness :
    (∃ s, runTool envEmpty0 [] "master" "origin" none false = RunRes.crash s ∧
       s.trace.filter isGitEv = [Event.git ["rev-parse", "--abbrev-ref", "--verify", "HEAD"]]) ∧
    (∃ s, runTool envEmpty1 [] "master" "origin" none false = RunRes.crash s ∧
       s.trace.filter isGitEv = [Event.git ["rev-parse", "--abbrev-ref", "--verify", "HEAD"],
         Event.git ["rev-parse", "master"]]) ∧
    (∃ s, runTool envEmpty2 [] "master" "origin" none false = RunRes.crash s ∧
       s.trace.filter isGitEv = [Event.git ["rev-parse", "--abbrev-ref", "--verify", "HEAD"],
         Event.git ["rev-parse", "master"], Event.git ["rev-parse", "feat"]]) ∧
    (∃ s, runTool envEmpty5 [] "master" "origin" none false = RunRes.crash s ∧
       s.trace.filter isGitEv = [Event.git ["rev-parse", "--abbrev-ref", "--verify", "HEAD"],
         Event.git ["rev-parse", "master"], Event.git ["rev-parse", "feat"],
         Event.git ["fetch", "origin"],
         Event.git ["rev-list", "--left-right", "--reverse", "HEAD...origin/master"],
         Event.git ["rev-parse", "HEAD"]]) :=
  ⟨(c9_rev_parse_indexing envEmpty0 [] "master" "origin" none false).1
      ⟨0, []⟩ rfl rfl (by decide),
   (c9_rev_parse_indexing envEmpty1 [] "master" "origin" none false).2.1
      ⟨0, ["feat\n"]⟩ "feat" [] ⟨0, []⟩ rfl rfl (by decide) rfl rfl (by decide),
   (c9_rev_parse_indexing envEmpty2 [] "master" "origin" none false).2.2.1
      ⟨0, ["feat\n"]⟩ "feat" [] ⟨0, ["aaa\n"]⟩ "aaa" [] ⟨0, []⟩
      rfl rfl (by decide) rfl rfl (by decide) rfl rfl (by decide),
   (c9_rev_parse_indexing envEmpty5 [] "master" "origin" none false).2.2.2
      ⟨0, ["feat\n"]⟩ "feat" [] ⟨0, ["aaa\n"]⟩ "aaa" [] ⟨0, ["bbb\n"]⟩ "bbb" []
      ⟨0, []⟩ ⟨0, ["<ccc\n"]⟩ "<ccc" ⟨0, []⟩
      rfl rfl (by decide) rfl rfl (by decide) rfl rfl (by decide) (by decide)
      rfl rfl rfl rfl (by decide) rfl rfl (by decide)⟩

/-- C7: from any state that reaches the push phase, when the four commands
of the phase succeed, the git commands issued are, in order: the force-push
of HEAD to the feature branch, the push of HEAD to the target branch, the
checkout of the target branch, and the pull with rebase — followed only by
the optional deletion commands. -/
theorem c7_push_order (env : Env) (tb rm fb : String) (ay : Bool) (s : St)
    (rA rB rC rD : GitResult)
    (hA : env.oracle s.k ["push", "--force", rm, "HEAD:" ++ fb] = rA) (hcA : rA.code = 0)
    (hB : env.oracle (s.k + 1) ["push", rm, "HEAD:" ++ tb] = rB) (hcB : rB.code = 0)
    (hC : env.oracle (s.k + 2) ["checkout", tb] = rC) (hcC : rC.code = 0)
    (hD : env.oracle (s.k + 3) ["pull", rm, tb, "--rebase"] = rD) (hcD : rD.code = 0) :
    ∃ tail, (traceOf (pushPhase env tb rm fb ay s)).filter isGitEv =
      s.trace.filter isGitEv ++
        ([Event.git ["push", "--force", rm, "HEAD:" ++ fb],
          Event.git ["push", rm, "HEAD:" ++ tb],
          Event.git ["checkout", tb],
          Event.git ["pull", rm, tb, "--rebase"]] ++ tail) := by
  have push_eq : pushPhase env tb rm fb ay s =
      mbind (deletePhase env rm fb ay) (fun _ => mprint "Good bye.")
        (stGit (stPrint (stGit (stPrint (stGit (stPrint (stGit (stPrint s
          "Force-pushing commit to feature branch...")
          ["push", "--force", rm, "HEAD:" ++ fb] (gitLines rA))
          "Pushing commit to target branch...")
          ["push", rm, "HEAD:" ++ tb] (gitLines rB))
          "Switching to target branch...")
          ["checkout", tb] (gitLines rC))
          "Pulling in upstream changes...")
          ["pull", rm, tb, "--rebase"] (gitLines rD)) := by
    simp [pushPhase, mbind, gitCall, mprint, hA, hcA, hB, hcB, hC, hcC, hD, hcD]
  rw [push_eq]
  apply filter_extend_after _ (shape_top_deleteTail env rm fb ay)
  simp [stGit, stPrint, gitEvents, List.filter_append, List.filter_cons]

/-- Concrete instance of the push-order theorem. -/
theorem c7_push_order_witness :
    ∃ tail, (traceOf (pushPhase envSameRef "master" "origin" "feat" true (St.init []))).filter isGitEv =
      (St.init []).trace.filter isGitEv ++
        ([Event.git ["push", "--force", "origin", "HEAD:feat"],
          Event.git ["push", "origin", "HEAD:master"],
          Event.git ["checkout", "master"],
          Event.git ["pull", "origin", "master", "--rebase"]] ++ tail) :=
  c7_push_order envSameRef "master" "origin" "feat" true (St.init [])
    ⟨0, ["feat\n"]⟩ ⟨0, ["aaa\n"]⟩ ⟨0, ["aaa\n"]⟩ ⟨0, []⟩
    rfl rfl rfl rfl rfl rfl rfl rfl

@[simp] theorem stRead_k (s : St) (p : String) (rest : List String) : (stRead s p rest).k = s.k := rfl

@[simp] theorem stRead_stdin (s : St) (p : String) (rest : List String) : (stRead s p rest).stdin = rest := rfl

@[simp] theorem stRead_trace (s : St) (p : String) (rest : List String) :
    (stRead s p rest).trace = s.trace ++ [Event.prompt p] := rfl

@[simp] theorem stReadAll_k (s : St) : (stReadAll s).k = s.k := rfl

@[simp] theorem stReadAll_stdin (s : St) : (stReadAll s).stdin = [] := rfl

@[simp] theorem stReadAll_trace (s : St) :
    (stReadAll s).trace = s.trace ++ (s.stdin.map (fun _ => Event.prompt "")) ++ [Event.prompt ""] := rfl

/-- From a commit-free state, running the final commit command followed by
the push phase leaves exactly one commit invocation in the trace, carrying
the given message, whether or not the commit command succeeds. -/
theorem commit_tail_filter (env : Env) (tb rm fb msg : String) (ay : Bool) (s : St)
    (hs : s.trace.filter (cmdIs "commit") = []) :
    (traceOf (mbind (mbind (gitCall env ["commit", "-m", msg]) (fun _ => mret ()))
        (fun _ => pushPhase env tb rm fb ay) s)).filter (cmdIs "commit") =
      [Event.git ["commit", "-m", msg]] := by
  by_cases hc : (env.oracle s.k ["commit", "-m", msg]).code = 0
  · have e1 : mbind (mbind (gitCall env ["commit", "-m", msg]) (fun _ => mret ()))
        (fun _ => pushPhase env tb rm fb ay) s =
        pushPhase env tb rm fb ay
          (stGit s ["commit", "-m", msg] (gitLines (env.oracle s.k ["commit", "-m", msg]))) := by
      simp [mbind, gitCall, mret, hc]
    rw [e1, pushPhase_filter_cmd env tb rm fb ay _ "commit" (Or.inr (Or.inr rfl))]
    simp [stGit, gitEvents, List.filter_append, List.filter_cons, hs]
  · have e1 : mbind (mbind (gitCall env ["commit", "-m", msg]) (fun _ => mret ()))
        (fun _ => pushPhase env tb rm fb ay) s =
        RunRes.exit 1 (stGitFail s ["commit", "-m", msg]
          (gitLines (env.oracle s.k ["commit", "-m", msg]))
          (env.oracle s.k ["commit", "-m", msg]).code) := by
      simp [mbind, gitCall, hc]
    rw [e1]
    simp [stGitFail, gitEvents, failEvents, List.filter_append, List.filter_cons, hs]

/-- In the squash phase with a non-empty supplied message, the single
commit created carries that message verbatim. -/
theorem squash_given_message_filter (env : Env) (tb rm fb fc : String) (ay : Bool) (s : St)
    (r6 r7 r8 : GitResult)
    (h6 : env.oracle s.k ["show", "--no-patch", "--format=%B", fc] = r6) (hc6 : r6.code = 0)
    (h7 : env.oracle (s.k + 1) ["merge", rm ++ "/" ++ tb] = r7) (hc7 : r7.code = 0)
    (h8 : env.oracle (s.k + 2) ["reset", "--soft", rm ++ "/" ++ tb] = r8) (hc8 : r8.code = 0)
    (hs : s.trace.filter (cmdIs "commit") = [])
    (m : String) (hm : m ≠ "") :
    (traceOf (mbind (squashPhase env tb rm fc (some m) ay)
        (fun _ => pushPhase env tb rm fb ay) s)).filter (cmdIs "commit") =
      [Event.git ["commit", "-m", m]] := by
  have req : mbind (squashPhase env tb rm fc (some m) ay) (fun _ => pushPhase env tb rm fb ay) s
      = mbind (mbind (gitCall env ["commit", "-m", m]) (fun _ => mret ()))
          (fun _ => pushPhase env tb rm fb ay)
          (stGit (stPrint (stGit (stPrint (stGit s
            ["show", "--no-patch", "--format=%B", fc] (gitLines r6))
            "Merging in upstream changes...")
            ["merge", rm ++ "/" ++ tb] (gitLines r7))
            "Squashing commits...")
            ["reset", "--soft", rm ++ "/" ++ tb] (gitLines r8)) := by
    simp [squashPhase, resolveMessage, mbind, gitCall, mprint, mret,
      h6, hc6, h7, hc7, h8, hc8, hm]
  rw [req]
  apply commit_tail_filter
  simp [stGit, stPrint, gitEvents, List.filter_append, List.filter_cons, hs]

/-- In the squash phase with a missing or empty supplied message, the
single commit created carries the captured first-commit message when reuse
is auto-affirmed or interactively affirmed, and the newline-join of the
remaining input lines when reuse is declined. -/
theorem squash_prompt_filter (env : Env) (tb rm fb fc : String) (s : St)
    (r6 r7 r8 : GitResult)
    (h6 : env.oracle s.k ["show", "--no-patch", "--format=%B", fc] = r6) (hc6 : r6.code = 0)
    (h7 : env.oracle (s.k + 1) ["merge", rm ++ "/" ++ tb] = r7) (hc7 : r7.code = 0)
    (h8 : env.oracle (s.k + 2) ["reset", "--soft", rm ++ "/" ++ tb] = r8) (hc8 : r8.code = 0)
    (hs : s.trace.filter (cmdIs "commit") = []) :
    (∀ (msg0 : Option String), msg0.getD "" = "" →
      (traceOf (mbind (squashPhase env tb rm fc msg0 true)
          (fun _ => pushPhase env tb rm fb true) s)).filter (cmdIs "commit") =
        [Event.git ["commit", "-m", String.intercalate "\n" (gitLines r6)]]) ∧
    (∀ (msg0 : Option String) (a : String) (rest : List String), msg0.getD "" = "" →
      s.stdin = a :: rest → pyLower a = "y" →
      (traceOf (mbind (squashPhase env tb rm fc msg0 false)
          (fun _ => pushPhase env tb rm fb false) s)).filter (cmdIs "commit") =
        [Event.git ["commit", "-m", String.intercalate "\n" (gitLines r6)]]) ∧
    (∀ (msg0 : Option String) (a : String) (rest : List String), msg0.getD "" = "" →
      s.stdin = a :: rest → pyLower a ≠ "y" →
      (traceOf (mbind (squashPhase env tb rm fc msg0 false)
          (fun _ => pushPhase env tb rm fb false) s)).filter (cmdIs "commit") =
        [Event.git ["commit", "-m", String.intercalate "\n" rest]]) := by
  refine ⟨?_, ?_, ?_⟩
  · intro msg0 hget
    have req : mbind (squashPhase env tb rm fc msg0 true) (fun _ => pushPhase env tb rm fb true) s
        = mbind (mbind (gitCall env ["commit", "-m", String.intercalate "\n" (gitLines r6)])
            (fun _ => mret ()))
            (fun _ => pushPhase env tb rm fb true)
            (stPrint (stPrint (stPrint (stPrint (stPrint (stPrint (stPrint
              (stGit (stPrint (stGit (stPrint (stGit s
                ["show", "--no-patch", "--format=%B", fc] (gitLines r6))
                "Merging in upstream changes...")
                ["merge", rm ++ "/" ++ tb] (gitLines r7))
                "Squashing commits...")
                ["reset", "--soft", rm ++ "/" ++ tb] (gitLines r8))
              "Message of the first commit on this branch:") "----") "")
              (String.intercalate "\n" (gitLines r6))) "") "----")
              "Re-using commit messsage...") := by
      simp [squashPhase, resolveMessage, confirm, mbind, gitCall, mprint, mret,
        h6, hc6, h7, hc7, h8, hc8, hget]
    rw [req]
    apply commit_tail_filter
    simp [stGit, stPrint, gitEvents, List.filter_append, List.filter_cons, hs]
  · intro msg0 a rest hget hstdin hy
    have req : mbind (squashPhase env tb rm fc msg0 false) (fun _ => pushPhase env tb rm fb false) s
        = mbind (mbind (gitCall env ["commit", "-m", String.intercalate "\n" (gitLines r6)])
            (fun _ => mret ()))
            (fun _ => pushPhase env tb rm fb false)
            (stPrint (stRead (stPrint (stPrint (stPrint (stPrint (stPrint (stPrint
              (stGit (stPrint (stGit (stPrint (stGit s
                ["show", "--no-patch", "--format=%B", fc] (gitLines r6))
                "Merging in upstream changes...")
                ["merge", rm ++ "/" ++ tb] (gitLines r7))
                "Squashing commits...")
                ["reset", "--soft", rm ++ "/" ++ tb] (gitLines r8))
              "Message of the first commit on this branch:") "----") "")
              (String.intercalate "\n" (gitLines r6))) "") "----")
              "Re-use the this message (y/N): " rest)
              "Re-using commit messsage...") := by
      simp [squashPhase, resolveMessage, confirm, mbind, gitCall, mprint, mret,
        readLine, stRead, h6, hc6, h7, hc7, h8, hc8, hget, hstdin, hy]
    rw [req]
    apply commit_tail_filter
    simp [stGit, stPrint, stRead, gitEvents, List.filter_append, List.filter_cons, hs]
  · intro msg0 a rest hget hstdin hny
    have req : mbind (squashPhase env tb rm fc msg0 false) (fun _ => pushPhase env tb rm fb false) s
        = mbind (mbind (gitCall env ["commit", "-m", String.intercalate "\n" rest])
            (fun _ => mret ()))
            (fun _ => pushPhase env tb rm fb false)
            (stReadAll (stPrint (stRead (stPrint (stPrint (stPrint (stPrint (stPrint (stPrint
              (stGit (stPrint (stGit (stPrint (stGit s
                ["show", "--no-patch", "--format=%B", fc] (gitLines r6))
                "Merging in upstream changes...")
                ["merge", rm ++ "/" ++ tb] (gitLines r7))
                "Squashing commits...")
                ["reset", "--soft", rm ++ "/" ++ tb] (gitLines r8))
              "Message of the first commit on this branch:") "----") "")
              (String.intercalate "\n" (gitLines r6))) "") "----")
              "Re-use the this message (y/N): " rest)
              "Enter/paste your message. Hit Ctrl-D to save it.")) := by
      simp [squashPhase, resolveMessage, confirm, mbind, gitCall, mprint, mret,
        readLine, readAll, stRead, stReadAll, beq_iff_eq,
        h6, hc6, h7, hc7, h8, hc8, hget, hstdin, hny]
    rw [req]
    apply commit_tail_filter
    simp [stGit, stPrint, stRead, stReadAll, gitEvents, List.filter_append,
      List.filter_cons, hs]

/-- C1 amended: in the multiple-commits-ahead path (first unique commit
different from HEAD), the single commit created by the squash carries: the
supplied message verbatim when a non-empty message is given; otherwise (the
message option absent or empty) the first unique commits captured message
when reuse is auto-affirmed by assume-yes or interactively affirmed; and
the newline-join of the interactively entered lines, read to end of input,
when reuse is declined. -/
theorem c1_squash_commit_message (env : Env) (tb rm : String)
    (r0 r1 r2 r3 r4 r5 r6 r7 r8 : GitResult) (fb tr fr cm hd : String)
    (t0 t1 t2 t5 : List String)
    (h0 : env.oracle 0 ["rev-parse", "--abbrev-ref", "--verify", "HEAD"] = r0)
    (hc0 : r0.code = 0) (hl0 : gitLines r0 = fb :: t0)
    (h1 : env.oracle 1 ["rev-parse", tb] = r1) (hc1 : r1.code = 0) (hl1 : gitLines r1 = tr :: t1)
    (h2 : env.oracle 2 ["rev-parse", fb] = r2) (hc2 : r2.code = 0) (hl2 : gitLines r2 = fr :: t2)
    (hne : tr ≠ fr)
    (h3 : env.oracle 3 ["fetch", rm] = r3) (hc3 : r3.code = 0)
    (h4 : env.oracle 4 ["rev-list", "--left-right", "--reverse", "HEAD..." ++ rm ++ "/" ++ tb] = r4)
    (hc4 : r4.code = 0)
    (hfind : (gitLines r4).find? (fun c => pyStartsWith c "<") = some cm)
    (h5 : env.oracle 5 ["rev-parse", "HEAD"] = r5) (hc5 : r5.code = 0) (hl5 : gitLines r5 = hd :: t5)
    (hne2 : cm.drop 1 ≠ hd)
    (h6 : env.oracle 6 ["show", "--no-patch", "--format=%B", cm.drop 1] = r6) (hc6 : r6.code = 0)
    (h7 : env.oracle 7 ["merge", rm ++ "/" ++ tb] = r7) (hc7 : r7.code = 0)
    (h8 : env.oracle 8 ["reset", "--soft", rm ++ "/" ++ tb] = r8) (hc8 : r8.code = 0) :
    (∀ (stdin : List String) (ay : Bool) (m : String), m ≠ "" →
      (traceOf (runTool env stdin tb rm (some m) ay)).filter (cmdIs "commit") =
        [Event.git ["commit", "-m", m]]) ∧
    (∀ (stdin : List String) (msg0 : Option String), msg0.getD "" = "" →
      (traceOf (runTool env stdin tb rm msg0 true)).filter (cmdIs "commit") =
        [Event.git ["commit", "-m", String.intercalate "\n" (gitLines r6)]]) ∧
    (∀ (msg0 : Option String) (a : String) (rest : List String), msg0.getD "" = "" →
      pyLower a = "y" →
      (traceOf (runTool env (a :: rest) tb rm msg0 false)).filter (cmdIs "commit") =
        [Event.git ["commit", "-m", String.intercalate "\n" (gitLines r6)]]) ∧
    (∀ (msg0 : Option String) (a : String) (rest : List String), msg0.getD "" = "" →
      pyLower a ≠ "y" →
      (traceOf (runTool env (a :: rest) tb rm msg0 false)).filter (cmdIs "commit") =
        [Event.git ["commit", "-m", String.intercalate "\n" rest]]) := by
  refine ⟨?_, ?_, ?_, ?_⟩
  · intro stdin ay m hm
    have req : runTool env stdin tb rm (some m) ay =
        mbind (squashPhase env tb rm (cm.drop 1) (some m) ay)
          (fun _ => pushPhase env tb rm fb ay)
          (stGit (stGit (stGit (stPrint (stPrint (stGit (stGit (stGit
            (St.init stdin)
            ["rev-parse", "--abbrev-ref", "--verify", "HEAD"] (fb :: t0))
            ["rev-parse", tb] (tr :: t1))
            ["rev-parse", fb] (fr :: t2))
            ("Merging pull request for branch " ++ fb ++ " with target branch " ++ tb ++ "..."))
            "Fetching upstream changes...")
            ["fetch", rm] (gitLines r3))
            ["rev-list", "--left-right", "--reverse", "HEAD..." ++ rm ++ "/" ++ tb] (gitLines r4))
            ["rev-parse", "HEAD"] (hd :: t5)) := by
      simp [runTool, mergePull, mbind, gitCall, idx0, mprint, firstLeft, mret,
        h0, hc0, hl0, h1, hc1, hl1, h2, hc2, hl2, hne, h3, hc3, h4, hc4, hfind,
        h5, hc5, hl5, hne2]
    rw [req]
    apply squash_given_message_filter env tb rm fb (cm.drop 1) ay _ r6 r7 r8
      h6 hc6 h7 hc7 h8 hc8 _ m hm
    simp [stGit, stPrint, gitEvents, St.init, List.filter_append, List.filter_cons]
  · intro stdin msg0 hget
    have req : runTool env stdin tb rm msg0 true =
        mbind (squashPhase env tb rm (cm.drop 1) msg0 true)
          (fun _ => pushPhase env tb rm fb true)
          (stGit (stGit (stGit (stPrint (stPrint (stGit (stGit (stGit
            (St.init stdin)
            ["rev-parse", "--abbrev-ref", "--verify", "HEAD"] (fb :: t0))
            ["rev-parse", tb] (tr :: t1))
            ["rev-parse", fb] (fr :: t2))
            ("Merging pull request for branch " ++ fb ++ " with target branch " ++ tb ++ "..."))
            "Fetching upstream changes...")
            ["fetch", rm] (gitLines r3))
            ["rev-list", "--left-right", "--reverse", "HEAD..." ++ rm ++ "/" ++ tb] (gitLines r4))
            ["rev-parse", "HEAD"] (hd :: t5)) := by
      simp [runTool, mergePull, mbind, gitCall, idx0, mprint, firstLeft, mret,
        h0, hc0, hl0, h1, hc1, hl1, h2, hc2, hl2, hne, h3, hc3, h4, hc4, hfind,
        h5, hc5, hl5, hne2]
    rw [req]
    refine (squash_prompt_filter env tb rm fb (cm.drop 1) _ r6 r7 r8
      h6 hc6 h7 hc7 h8 hc8 ?_).1 msg0 hget
    simp [stGit, stPrint, gitEvents, St.init, List.filter_append, List.filter_cons]
  · intro msg0 a rest hget hy
    have req : runTool env (a :: rest) tb rm msg0 false =
        mbind (squashPhase env tb rm (cm.drop 1) msg0 false)
          (fun _ => pushPhase env tb rm fb false)
          (stGit (stGit (stGit (stPrint (stPrint (stGit (stGit (stGit
            (St.init (a :: rest))
            ["rev-parse", "--abbrev-ref", "--verify", "HEAD"] (fb :: t0))
            ["rev-parse", tb] (tr :: t1))
            ["rev-parse", fb] (fr :: t2))
            ("Merging pull request for branch " ++ fb ++ " with target branch " ++ tb ++ "..."))
            "Fetching upstream changes...")
            ["fetch", rm] (gitLines r3))
            ["rev-list", "--left-right", "--reverse", "HEAD..." ++ rm ++ "/" ++ tb] (gitLines r4))
            ["rev-parse", "HEAD"] (hd :: t5)) := by
      simp [runTool, mergePull, mbind, gitCall, idx0, mprint, firstLeft, mret,
        h0, hc0, hl0, h1, hc1, hl1, h2, hc2, hl2, hne, h3, hc3, h4, hc4, hfind,
        h5, hc5, hl5, hne2]
    rw [req]
    refine (squash_prompt_filter env tb rm fb (cm.drop 1) _ r6 r7 r8
      h6 hc6 h7 hc7 h8 hc8 ?_).2.1 msg0 a rest hget rfl hy
    simp [stGit, stPrint, gitEvents, St.init, List.filter_append, List.filter_cons]
  · intro msg0 a rest hget hny
    have req : runTool env (a :: rest) tb rm msg0 false =
        mbind (squashPhase env tb rm (cm.drop 1) msg0 false)
          (fun _ => pushPhase env tb rm fb false)
          (stGit (stGit (stGit (stPrint (stPrint (stGit (stGit (stGit
            (St.init (a :: rest))
            ["rev-parse", "--abbrev-ref", "--verify", "HEAD"] (fb :: t0))
            ["rev-parse", tb] (tr :: t1))
            ["rev-parse", fb] (fr :: t2))
            ("Merging pull request for branch " ++ fb ++ " with target branch " ++ tb ++ "..."))
            "Fetching upstream changes...")
            ["fetch", rm] (gitLines r3))
            ["rev-list", "--left-right", "--reverse", "HEAD..." ++ rm ++ "/" ++ tb] (gitLines r4))
            ["rev-parse", "HEAD"] (hd :: t5)) := by
      simp [runTool, mergePull, mbind, gitCall, idx0, mprint, firstLeft, mret,
        h0, hc0, hl0, h1, hc1, hl1, h2, hc2, hl2, hne, h3, hc3, h4, hc4, hfind,
        h5, hc5, hl5, hne2]
    rw [req]
    refine (squash_prompt_filter env tb rm fb (cm.drop 1) _ r6 r7 r8
      h6 hc6 h7 hc7 h8 hc8 ?_).2.2 msg0 a rest hget rfl hny
    simp [stGit, stPrint, gitEvents, St.init, List.filter_append, List.filter_cons]

/-- C1 counterexample: with the empty string supplied as the message, the
squashed commit does not carry the supplied value verbatim — Python
falsiness routes the run into the reuse path and the commit carries the
first unique commits message instead. -/
theorem c1_empty_message_not_verbatim :
    (traceOf (runTool envSquash [] "master" "origin" (some "") true)).filter (cmdIs "commit")
      = [Event.git ["commit", "-m", "first msg"]] ∧ "first msg" ≠ "" := by
  constructor
  · decide
  · decide

/-- Concrete instances of all four message-resolution cases. -/
theorem c1_squash_commit_message_witness :
    (traceOf (runTool envSquash [] "master" "origin" (some "Add x") true)).filter (cmdIs "commit")
      = [Event.git ["commit", "-m", "Add x"]] ∧
    (traceOf (runTool envSquash [] "master" "origin" none true)).filter (cmdIs "commit")
      = [Event.git ["commit", "-m", "first msg"]] ∧
    (traceOf (runTool envSquash ["Y"] "master" "origin" none false)).filter (cmdIs "commit")
      = [Event.git ["commit", "-m", "first msg"]] ∧
    (traceOf (runTool envSquash ["n", "l1", "l2"] "master" "origin" none false)).filter (cmdIs "commit")
      = [Event.git ["commit", "-m", "l1\nl2"]] :=
  ⟨(c1_squash_commit_message envSquash "master" "origin"
      ⟨0, ["feat\n"]⟩ ⟨0, ["aaa\n"]⟩ ⟨0, ["bbb\n"]⟩ ⟨0, []⟩ ⟨0, ["<c1\n", "<c2\n"]⟩
      ⟨0, ["bbb\n"]⟩ ⟨0, ["first msg\n"]⟩ ⟨0, []⟩ ⟨0, []⟩
      "feat" "aaa" "bbb" "<c1" "bbb" [] [] [] []
      rfl rfl (by decide) rfl rfl (by decide) rfl rfl (by decide) (by decide)
      rfl rfl rfl rfl (by decide) rfl rfl (by decide) (by decide)
      rfl rfl rfl rfl rfl rfl).1 [] true "Add x" (by decide),
   (c1_squash_commit_message envSquash "master" "origin"
      ⟨0, ["feat\n"]⟩ ⟨0, ["aaa\n"]⟩ ⟨0, ["bbb\n"]⟩ ⟨0, []⟩ ⟨0, ["<c1\n", "<c2\n"]⟩
      ⟨0, ["bbb\n"]⟩ ⟨0, ["first msg\n"]⟩ ⟨0, []⟩ ⟨0, []⟩
      "feat" "aaa" "bbb" "<c1" "bbb" [] [] [] []
      rfl rfl (by decide) rfl rfl (by decide) rfl rfl (by decide) (by decide)
      rfl rfl rfl rfl (by decide) rfl rfl (by decide) (by decide)
      rfl rfl rfl rfl rfl rfl).2.1 [] none rfl,
   (c1_squash_commit_message envSquash "master" "origin"
      ⟨0, ["feat\n"]⟩ ⟨0, ["aaa\n"]⟩ ⟨0, ["bbb\n"]⟩ ⟨0, []⟩ ⟨0, ["<c1\n", "<c2\n"]⟩
      ⟨0, ["bbb\n"]⟩ ⟨0, ["first msg\n"]⟩ ⟨0, []⟩ ⟨0, []⟩
      "feat" "aaa" "bbb" "<c1" "bbb" [] [] [] []
      rfl rfl (by decide) rfl rfl (by decide) rfl rfl (by decide) (by decide)
      rfl rfl rfl rfl (by decide) rfl rfl (by decide) (by decide)
      rfl rfl rfl rfl rfl rfl).2.2.1 none "Y" [] rfl (by decide),
   (c1_squash_commit_message envSquash "master" "origin"
      ⟨0, ["feat\n"]⟩ ⟨0, ["aaa\n"]⟩ ⟨0, ["bbb\n"]⟩ ⟨0, []⟩ ⟨0, ["<c1\n", "<c2\n"]⟩
      ⟨0, ["bbb\n"]⟩ ⟨0, ["first msg\n"]⟩ ⟨0, []⟩ ⟨0, []⟩
      "feat" "aaa" "bbb" "<c1" "bbb" [] [] [] []
      rfl rfl (by decide) rfl rfl (by decide) rfl rfl (by decide) (by decide)
      rfl rfl rfl rfl (by decide) rfl rfl (by decide) (by decide)
      rfl rfl rfl rfl rfl rfl).2.2.2 none "n" ["l1", "l2"] rfl (by decide)⟩

end MergePull
